import Mathlib

/-!
# gemini-live-voice-cpp: shallow embedding and verified properties

Conventions of the embedding.

* A `uint8_t` and a `char` of a `std::string` are natural numbers below 256;
  a `std::vector<uint8_t>` and a `std::string` are `List Nat`.
* An `int16_t` sample is an `Int` in `[-32768, 32767]`; a `std::vector<int16_t>`
  is a `List Int`.
* Conversions to a narrower machine type are written out with `%`.
-/

namespace MessageHandler

/-! ## Base64 codec (`src/src/message_handler.cpp`, lines 8-91) -/

/-- The table `base64_chars`, as character codes. -/
def base64_chars : List Nat :=
  "ABCDEFGHIJKLMNOPQRSTUVWXYZabcdefghijklmnopqrstuvwxyz0123456789+/".toList.map Char.toNat

/-- The local array `uint8_t char_array_3[3]`. -/
structure CharArray3 where
  e0 : Nat
  e1 : Nat
  e2 : Nat
deriving DecidableEq, Repr

/-- The local array `uint8_t char_array_4[4]`. -/
structure CharArray4 where
  e0 : Nat
  e1 : Nat
  e2 : Nat
  e3 : Nat
deriving DecidableEq, Repr

/-- Assignment `char_array_3[i] = v` (the stored value is a `uint8_t`). -/
def CharArray3.set (a : CharArray3) (i v : Nat) : CharArray3 :=
  match i with
  | 0 => { a with e0 := v % 256 }
  | 1 => { a with e1 := v % 256 }
  | _ => { a with e2 := v % 256 }

/-- Read `char_array_3[i]`. -/
def CharArray3.get (a : CharArray3) (i : Nat) : Nat :=
  match i with
  | 0 => a.e0
  | 1 => a.e1
  | _ => a.e2

/-- Assignment `char_array_4[i] = v` (the stored value is a `uint8_t`). -/
def CharArray4.set (a : CharArray4) (i v : Nat) : CharArray4 :=
  match i with
  | 0 => { a with e0 := v % 256 }
  | 1 => { a with e1 := v % 256 }
  | 2 => { a with e2 := v % 256 }
  | _ => { a with e3 := v % 256 }

/-- Read `char_array_4[i]`. -/
def CharArray4.get (a : CharArray4) (i : Nat) : Nat :=
  match i with
  | 0 => a.e0
  | 1 => a.e1
  | 2 => a.e2
  | _ => a.e3

/-- Indexing `base64_chars[k]`. -/
def base64_char_at (k : Nat) : Nat := base64_chars.getD k 0

/-- Lines 26-28 and 41-43: the first three six-bit values of a group. The
fourth entry is left as it was. -/
def encode_first3 (c3 : CharArray3) (c4 : CharArray4) : CharArray4 :=
  { c4 with
    e0 := ((c3.e0 &&& 0xfc) >>> 2) % 256
    e1 := (((c3.e0 &&& 0x03) <<< 4) + ((c3.e1 &&& 0xf0) >>> 4)) % 256
    e2 := (((c3.e1 &&& 0x0f) <<< 2) + ((c3.e2 &&& 0xc0) >>> 6)) % 256 }

/-- Lines 26-29: all four six-bit values of a full group. -/
def encode_group (c3 : CharArray3) (c4 : CharArray4) : CharArray4 :=
  { encode_first3 c3 c4 with e3 := (c3.e2 &&& 0x3f) % 256 }

/-- State of the loops of the codec: the counter `i`, both local arrays and
the output `ret`. -/
structure CodecState where
  i : Nat
  char_array_3 : CharArray3
  char_array_4 : CharArray4
  ret : List Nat
deriving DecidableEq, Repr

/-- The `while (in_len--)` loop of `base64_encode` (lines 23-35). -/
def base64_encode_loop : List Nat → CodecState → CodecState
  | [], s => s
  | x :: rest, s =>
    let c3 := s.char_array_3.set s.i x
    let i := s.i + 1
    if i = 3 then
      let c4 := encode_group c3 s.char_array_4
      base64_encode_loop rest
        { i := 0, char_array_3 := c3, char_array_4 := c4,
          ret := s.ret ++ (List.range 4).map (fun k => base64_char_at (c4.get k)) }
    else
      base64_encode_loop rest { s with i := i, char_array_3 := c3 }

/-- The tail of `base64_encode` (lines 37-50): zero-fill, three six-bit
values, `i + 1` characters and `3 - i` padding characters. -/
def base64_encode_tail (s : CodecState) : List Nat :=
  if s.i ≠ 0 then
    let c3 := (List.range' s.i (3 - s.i)).foldl (fun c j => c.set j 0) s.char_array_3
    let c4 := encode_first3 c3 s.char_array_4
    s.ret ++ (List.range (s.i + 1)).map (fun j => base64_char_at (c4.get j))
      ++ List.replicate (3 - s.i) 61
  else s.ret

/-- `MessageHandler::base64_encode`. The local arrays start with the
contents `u3` and `u4` (they are not initialised by the source). -/
def base64_encode_with (u3 : CharArray3) (u4 : CharArray4) (data : List Nat) : List Nat :=
  base64_encode_tail
    (base64_encode_loop data { i := 0, char_array_3 := u3, char_array_4 := u4, ret := [] })

/-- `MessageHandler::base64_encode` with the local arrays zero at entry. -/
def base64_encode (data : List Nat) : List Nat :=
  base64_encode_with ⟨0, 0, 0⟩ ⟨0, 0, 0, 0⟩ data

/-- C `isalnum` in the "C" locale, on a character code. -/
def isalnum (c : Nat) : Bool :=
  (48 ≤ c && c ≤ 57) || (65 ≤ c && c ≤ 90) || (97 ≤ c && c ≤ 122)

/-- The loop guard of `base64_decode` on the current character (lines 63-64). -/
def decode_guard (c : Nat) : Bool :=
  c != 61 && (isalnum c || c == 43 || c == 47)

/-- First position of `c` in `l`, counted from `k`. -/
def find_from (c : Nat) : List Nat → Nat → Option Nat
  | [], _ => none
  | x :: rest, k => if x = c then some k else find_from c rest (k + 1)

/-- The expression `static_cast<uint8_t>(base64_chars.find(c))`; `npos` is
`2^64 - 1`. -/
def base64_find (c : Nat) : Nat :=
  match find_from c base64_chars 0 with
  | some k => k % 256
  | none => (2 ^ 64 - 1) % 256

/-- Lines 70-71 and 84-85: the first two decoded bytes. The third entry is
left as it was. -/
def decode_first2 (c4 : CharArray4) (c3 : CharArray3) : CharArray3 :=
  { c3 with
    e0 := ((c4.e0 <<< 2) + ((c4.e1 &&& 0x30) >>> 4)) % 256
    e1 := (((c4.e1 &&& 0xf) <<< 4) + ((c4.e2 &&& 0x3c) >>> 2)) % 256 }

/-- Lines 70-72: the three decoded bytes of a full group. -/
def decode_group (c4 : CharArray4) (c3 : CharArray3) : CharArray3 :=
  { decode_first2 c4 c3 with e2 := (((c4.e2 &&& 0x3) <<< 6) + c4.e3) % 256 }

/-- The loops `for (j = 0; j < n; j++) char_array_4[j] = find(char_array_4[j])`
of lines 67-68 and 81-82. -/
def find_first (n : Nat) (c4 : CharArray4) : CharArray4 :=
  (List.range n).foldl (fun c j => c.set j (base64_find (c.get j))) c4

/-- The `while` loop of `base64_decode` (lines 63-78). -/
def base64_decode_loop : List Nat → CodecState → CodecState
  | [], s => s
  | c :: rest, s =>
    if decode_guard c then
      let c4 := s.char_array_4.set s.i c
      let i := s.i + 1
      if i = 4 then
        let c4 := find_first 4 c4
        let c3 := decode_group c4 s.char_array_3
        base64_decode_loop rest
          { i := 0, char_array_3 := c3, char_array_4 := c4,
            ret := s.ret ++ (List.range 3).map (fun k => c3.get k) }
      else
        base64_decode_loop rest { s with i := i, char_array_4 := c4 }
    else s

/-- The tail of `base64_decode` (lines 80-88). -/
def base64_decode_tail (s : CodecState) : List Nat :=
  if s.i ≠ 0 then
    let c4 := find_first s.i s.char_array_4
    let c3 := decode_first2 c4 s.char_array_3
    s.ret ++ (List.range (s.i - 1)).map (fun j => c3.get j)
  else s.ret

/-- `MessageHandler::base64_decode`. The local arrays start with the
contents `u3` and `u4` (they are not initialised by the source). -/
def base64_decode_with (u3 : CharArray3) (u4 : CharArray4) (encoded_string : List Nat) :
    List Nat :=
  base64_decode_tail
    (base64_decode_loop encoded_string
      { i := 0, char_array_3 := u3, char_array_4 := u4, ret := [] })

/-- `MessageHandler::base64_decode` with the local arrays zero at entry. -/
def base64_decode (encoded_string : List Nat) : List Nat :=
  base64_decode_with ⟨0, 0, 0⟩ ⟨0, 0, 0, 0⟩ encoded_string

/-- The four characters `base64_encode` emits for a full group. -/
def quad (a b c : Nat) : List Nat :=
  [base64_char_at (a / 4), base64_char_at (a % 4 * 16 + b / 16),
   base64_char_at (b % 16 * 4 + c / 64), base64_char_at (c % 64)]

/-- Closed form of the output of `base64_encode`, group by group. -/
def encoded : List Nat → List Nat
  | [] => []
  | [a] => [base64_char_at (a / 4), base64_char_at (a % 4 * 16), 61, 61]
  | [a, b] =>
    [base64_char_at (a / 4), base64_char_at (a % 4 * 16 + b / 16),
     base64_char_at (b % 16 * 4), 61]
  | a :: b :: c :: rest => quad a b c ++ encoded rest

/-! ## Sample packing (`src/src/message_handler.cpp`, lines 93-104 and 202-211) -/

/-- Conversion of an integer value to `int32_t` (two's complement wrap). -/
def to_int32 (v : Int) : Int := (v + 2147483648) % 4294967296 - 2147483648

/-- Conversion of an integer value to `int16_t` (two's complement wrap). -/
def to_int16 (v : Int) : Int := (v + 32768) % 65536 - 32768

/-- Conversion of an integer value to `uint8_t`. -/
def to_uint8 (v : Int) : Nat := (v % 256).toNat

/-- The operator `&` on two `int` operands, in two's complement. -/
def int_and (a b : Int) : Int :=
  to_int32 (Int.ofNat ((a % 4294967296).toNat &&& (b % 4294967296).toNat))

/-- `MessageHandler::int16_to_uint8` (lines 93-104). -/
def int16_to_uint8 : List Int → List Nat
  | [] => []
  | sample :: rest =>
    to_uint8 (int_and sample 0xFF) :: to_uint8 (int_and (sample >>> (8 : Nat)) 0xFF) ::
      int16_to_uint8 rest

/-- The conversion loop of `extract_audio_from_response` (lines 202-211). -/
def uint8_to_int16 : List Nat → List Int
  | lo :: hi :: rest => to_int16 (Int.ofNat (lo ||| (hi <<< 8))) :: uint8_to_int16 rest
  | _ => []
end MessageHandler

/-! ## Strings of the C++ standard library -/

namespace Cxx

/-- The bytes of a string literal of the (UTF-8 encoded) source. -/
def utf8 (s : String) : List Nat :=
  s.toList.flatMap (fun c => (String.utf8EncodeChar c).map UInt8.toNat)

/-- `std::string::find(needle)` on the text `hay`, where `pos` is the index of
the head of `hay`; `none` stands for `std::string::npos`. -/
def string_find (needle : List Nat) : List Nat → Nat → Option Nat
  | [], pos => if needle.isPrefixOf [] then some pos else none
  | c :: rest, pos =>
    if needle.isPrefixOf (c :: rest) then some pos else string_find needle rest (pos + 1)

/-- The test `hay.find(needle) != std::string::npos`. -/
def found (hay needle : List Nat) : Bool := (string_find needle hay 0).isSome

end Cxx

/-! ## JSON values of the `nlohmann::json` library

Parsing and serialisation belong to the library. A parsed message is a
`Json` value; an object lists its members in iteration order. -/

/-- A `nlohmann::json` value. A floating-point number is carried as its
64-bit pattern; a string as its bytes. -/
inductive Json where
  | null : Json
  | boolean (b : Bool) : Json
  | number_integer (n : Int) : Json
  | number_float (bits : Nat) : Json
  | string (s : List Nat) : Json
  | array (elems : List Json) : Json
  | object (members : List (String × Json)) : Json

namespace Json

/-- `j.contains(key)`: `j` is an object that has the member `key`. -/
def contains (j : Json) (key : String) : Bool :=
  match j with
  | object members => (members.lookup key).isSome
  | _ => false

/-- `j[key]` for an object `j`. Every use in the sources is guarded by
`contains`; without the member the value is null. -/
def member (j : Json) (key : String) : Json :=
  match j with
  | object members => (members.lookup key).getD null
  | _ => null

/-- `j.get<std::string>()`; `none` stands for the `type_error` thrown on a
value that is not a string. -/
def get_string (j : Json) : Option (List Nat) :=
  match j with
  | string s => some s
  | _ => none

/-- The values a range-based `for` over `j` visits: the elements of an array,
the member values of an object, nothing for null, the value itself otherwise. -/
def items (j : Json) : List Json :=
  match j with
  | array elems => elems
  | object members => members.map Prod.snd
  | null => []
  | other => [other]

/-- The value reached from `j` through the member names `keys`, if every one
of them is present. -/
def path : Json → List String → Option Json
  | j, [] => some j
  | object members, k :: ks =>
    match members.lookup k with
    | some v => path v ks
    | none => none
  | _, _ :: _ => none

end Json

namespace MessageHandler

/-! ## Message builder and parser (`src/src/message_handler.cpp`, lines 147-310) -/

/-- `MessageHandler::create_audio_input_message` (lines 147-167), before the
final `dump()`. -/
def create_audio_input_message (audio_data : List Int) (mime_type : List Nat) : Json :=
  let byte_data := int16_to_uint8 audio_data
  let encoded_audio := base64_encode byte_data
  Json.object [("realtimeInput", Json.object [("mediaChunks", Json.array
    [Json.object [("data", Json.string encoded_audio), ("mimeType", Json.string mime_type)]])])]

/-- The loop over `model_turn["parts"]` of lines 274-280: the first part that
has a member `text` decides. -/
def first_text_part : List Json → Option (List Nat)
  | [] => none
  | part :: rest =>
    if part.contains "text" then (part.member "text").get_string
    else first_text_part rest

/-- `MessageHandler::extract_transcription_from_response` (lines 230-291) on
the outcome of `json::parse` (`none`: the parse threw). The result is the
transcription when the function returns true, `none` when it returns false;
an exception of the library is caught and gives false. -/
def extract_transcription_from_response (parsed : Option Json) : Option (List Nat) :=
  match parsed with
  | none => none
  | some response =>
    if response.contains "toolCallTranscription" &&
        (response.member "toolCallTranscription").contains "text" then
      ((response.member "toolCallTranscription").member "text").get_string
    else if response.contains "serverContent" then
      let server_content := response.member "serverContent"
      if server_content.contains "inputTranscription" &&
          (server_content.member "inputTranscription").contains "text" then
        ((server_content.member "inputTranscription").member "text").get_string
      else if server_content.contains "outputTranscription" &&
          (server_content.member "outputTranscription").contains "text" then
        ((server_content.member "outputTranscription").member "text").get_string
      else if server_content.contains "modelTurn" &&
          (server_content.member "modelTurn").contains "parts" then
        first_text_part ((server_content.member "modelTurn").member "parts").items
      else none
    else none

/-- `MessageHandler::is_user_input_transcription` (lines 293-310) on the
outcome of `json::parse`. -/
def is_user_input_transcription (parsed : Option Json) : Bool :=
  match parsed with
  | none => false
  | some response =>
    if response.contains "serverContent" then
      (response.member "serverContent").contains "inputTranscription"
    else false

/-- The fields of a message that can carry a transcript, in the order of
priority of the specification: the dedicated tool-call transcription, the
input transcription, the output transcription, the first text part of the
model-generated content. The result is the value of the first one present. -/
def first_transcript_field (response : Json) : Option Json :=
  (response.path ["toolCallTranscription", "text"]).orElse fun _ =>
  (response.path ["serverContent", "inputTranscription", "text"]).orElse fun _ =>
  (response.path ["serverContent", "outputTranscription", "text"]).orElse fun _ =>
  (response.path ["serverContent", "modelTurn", "parts"]).bind fun parts =>
    (parts.items.filterMap fun part => part.path ["text"]).head?

end MessageHandler

/-! ## The session wiring of `src/src/main.cpp` -/

namespace Main

open MessageHandler Cxx

/-! ### Recording callback (lines 313-334) -/

/-- The body of the sample loop of `recording_callback` (lines 321-324): the
value pushed for `sample`. The `int32_t` product wraps modulo `2^32`. -/
def amplify (GAIN_FACTOR : Int) (sample : Int) : Int :=
  let amplified := to_int32 (sample * GAIN_FACTOR)
  let amplified := if amplified > 32767 then 32767 else amplified
  let amplified := if amplified < -32768 then -32768 else amplified
  to_int16 amplified

/-- State of the capture path: the accumulator and the messages handed to
`ws_client.send`, oldest first. -/
structure CaptureState where
  accumulated_audio : List Int
  sent : List Json

/-- The default `mime_type` of `create_audio_input_message`
(`include/message_handler.h`, line 41). -/
def default_mime_type : List Nat := utf8 "audio/pcm;rate=16000"

/-- One invocation of `recording_callback` (lines 316-334). -/
def recording_callback (CHUNK_SIZE : Nat) (GAIN_FACTOR : Int) (audio_chunk : List Int)
    (s : CaptureState) : CaptureState :=
  let accumulated_audio := s.accumulated_audio ++ audio_chunk.map (amplify GAIN_FACTOR)
  if accumulated_audio.length ≥ CHUNK_SIZE then
    let audio_message := create_audio_input_message accumulated_audio default_mime_type
    { accumulated_audio := [], sent := s.sent ++ [audio_message] }
  else
    { s with accumulated_audio := accumulated_audio }

/-- Successive invocations of `recording_callback`, one per captured block. -/
def record (CHUNK_SIZE : Nat) (GAIN_FACTOR : Int) (blocks : List (List Int))
    (s : CaptureState) : CaptureState :=
  blocks.foldl (fun st block => recording_callback CHUNK_SIZE GAIN_FACTOR block st) s

/-! ### Playback drain loop (lines 204-212 and 266-310) -/

/-- The shared queue `g_audio_queue` and the local `audio_buffer` of the
playback thread. -/
structure DrainState where
  g_audio_queue : List (List Int)
  audio_buffer : List Int
deriving DecidableEq, Repr

/-- The enqueue of the message callback (lines 210-211). -/
def enqueue (audio_data : List Int) (s : DrainState) : DrainState :=
  { s with g_audio_queue := s.g_audio_queue ++ [audio_data] }

/-- The loop of lines 275-279: every queued block is appended to the buffer. -/
def absorb_queue : List (List Int) → List Int → List Int
  | [], audio_buffer => audio_buffer
  | data :: queue, audio_buffer => absorb_queue queue (audio_buffer ++ data)

/-- One iteration of the playback thread (lines 271-309). `arrivals` are the
blocks the receive callback pushes between the two critical sections, after
the queue has been emptied and before `g_audio_queue.empty()` is read. The
second component lists the arguments of the `play_audio` calls made. -/
def playback_tick (BUFFER_SIZE MIN_BUFFER_SIZE : Nat) (dummy_audio : Bool)
    (arrivals : List (List Int)) (s : DrainState) : DrainState × List (List Int) :=
  let audio_buffer := absorb_queue s.g_audio_queue s.audio_buffer
  let g_audio_queue := arrivals
  if audio_buffer.length ≥ BUFFER_SIZE then
    if !dummy_audio then
      let to_play := audio_buffer.take BUFFER_SIZE
      ({ g_audio_queue := g_audio_queue, audio_buffer := audio_buffer.drop BUFFER_SIZE },
        [to_play])
    else
      ({ g_audio_queue := g_audio_queue, audio_buffer := [] }, [])
  else if audio_buffer.length ≥ MIN_BUFFER_SIZE then
    let queue_empty := g_audio_queue.isEmpty
    if queue_empty && !dummy_audio then
      ({ g_audio_queue := g_audio_queue, audio_buffer := [] }, [audio_buffer])
    else
      ({ g_audio_queue := g_audio_queue, audio_buffer := audio_buffer }, [])
  else
    ({ g_audio_queue := g_audio_queue, audio_buffer := audio_buffer }, [])

/-- An event of the playback path: the receive callback enqueues a block, or
the playback thread runs one iteration during which `arrivals` come in. -/
inductive DrainEvent where
  | enqueue (audio_data : List Int) : DrainEvent
  | tick (arrivals : List (List Int)) : DrainEvent
deriving DecidableEq, Repr

/-- The blocks an event brings in, in arrival order. -/
def DrainEvent.blocks : DrainEvent → List (List Int)
  | DrainEvent.enqueue audio_data => [audio_data]
  | DrainEvent.tick arrivals => arrivals

/-- The playback path run over a sequence of events: the state reached and
all blocks handed to `play_audio` so far, oldest first. -/
def drain_run (BUFFER_SIZE MIN_BUFFER_SIZE : Nat) (dummy_audio : Bool) :
    List DrainEvent → DrainState × List (List Int) → DrainState × List (List Int)
  | [], acc => acc
  | DrainEvent.enqueue audio_data :: rest, (s, played) =>
    drain_run BUFFER_SIZE MIN_BUFFER_SIZE dummy_audio rest (enqueue audio_data s, played)
  | DrainEvent.tick arrivals :: rest, (s, played) =>
    let r := playback_tick BUFFER_SIZE MIN_BUFFER_SIZE dummy_audio arrivals s
    drain_run BUFFER_SIZE MIN_BUFFER_SIZE dummy_audio rest (r.1, played ++ r.2)

/-- The empty queue and buffer the playback path starts from. -/
def DrainState.empty : DrainState := { g_audio_queue := [], audio_buffer := [] }

/-! ### Transcript aggregation of the message callback (lines 165-202) -/

/-- The speaker a printed line is tagged with. -/
inductive Role where
  | user : Role
  | assistant : Role
deriving DecidableEq, Repr

/-- The two transcript buffers and the utterances printed so far. -/
structure TranscriptState where
  user_transcript_buffer : List Nat
  ai_transcript_buffer : List Nat
  printed : List (Role × List Nat)
deriving DecidableEq, Repr

/-- The punctuation test of lines 180-185 and 192-197. -/
def has_terminator (buffer : List Nat) : Bool :=
  found buffer (utf8 "。") || found buffer (utf8 "！") || found buffer (utf8 "？") ||
  found buffer (utf8 ".") || found buffer (utf8 "!") || found buffer (utf8 "?")

/-- The transcript part of the message callback (lines 173-202). -/
def on_transcript (message : Option Json) (s : TranscriptState) : TranscriptState :=
  match extract_transcription_from_response message with
  | some transcription =>
    if is_user_input_transcription message then
      let user_transcript_buffer := s.user_transcript_buffer ++ transcription
      if has_terminator user_transcript_buffer then
        { s with user_transcript_buffer := [],
                 printed := s.printed ++ [(Role.user, user_transcript_buffer)] }
      else { s with user_transcript_buffer := user_transcript_buffer }
    else
      let ai_transcript_buffer := s.ai_transcript_buffer ++ transcription
      if has_terminator ai_transcript_buffer then
        { s with ai_transcript_buffer := [],
                 printed := s.printed ++ [(Role.assistant, ai_transcript_buffer)] }
      else { s with ai_transcript_buffer := ai_transcript_buffer }
  | none => s

/-- The sentence terminators of the specification. -/
def terminators : List (List Nat) :=
  [utf8 "。", utf8 "！", utf8 "？", utf8 ".", utf8 "!", utf8 "?"]

/-- The role the callback files a message under. -/
def role_of (message : Option Json) : Role :=
  if is_user_input_transcription message then Role.user else Role.assistant

/-- The transcript buffer of a role. -/
def TranscriptState.buffer (s : TranscriptState) : Role → List Nat
  | Role.user => s.user_transcript_buffer
  | Role.assistant => s.ai_transcript_buffer

/-- A message whose only content is an output transcription `text`. -/
def output_transcription_message (text : List Nat) : Option Json :=
  some (Json.object [("serverContent",
    Json.object [("outputTranscription", Json.object [("text", Json.string text)])])])

end Main

namespace MessageHandler

/-- A message whose tool-call transcription `text` is the number 5 and whose
output transcription `text` is the string "B". -/
def transcript_type_mismatch_message : Json :=
  Json.object
    [("toolCallTranscription", Json.object [("text", Json.number_integer 5)]),
     ("serverContent", Json.object
       [("outputTranscription", Json.object [("text", Json.string (Cxx.utf8 "B"))])])]

/-- A message with `toolCallTranscription.text = "A"` and
`serverContent.outputTranscription.text = "B"`. -/
def transcript_priority_message : Json :=
  Json.object
    [("toolCallTranscription", Json.object [("text", Json.string (Cxx.utf8 "A"))]),
     ("serverContent", Json.object
       [("outputTranscription", Json.object [("text", Json.string (Cxx.utf8 "B"))])])]

end MessageHandler

namespace Json

/-- `j.get<bool>()`; `none` stands for the `type_error` thrown on a value that
is not a boolean. -/
def get_bool (j : Json) : Option Bool :=
  match j with
  | boolean b => some b
  | _ => none

/-- Insertion of the member `key` into the members of an object, which are
kept in key order as in the `std::map` of the library; an existing member of
that name is replaced. -/
def insert_member (key : String) (v : Json) : List (String × Json) → List (String × Json)
  | [] => [(key, v)]
  | (k, w) :: rest =>
    if key = k then (key, v) :: rest
    else if key < k then (key, v) :: (k, w) :: rest
    else (k, w) :: insert_member key v rest

/-- The assignment `j[key] = v` on an object `j` (null becomes an object
first). -/
def assign (j : Json) (key : String) (v : Json) : Json :=
  match j with
  | object members => object (insert_member key v members)
  | null => object [(key, v)]
  | other => other

end Json

namespace MessageHandler

/-! ## Setup message and audio extraction (`src/src/message_handler.cpp`,
lines 106-145, 169-228 and 312-329) -/

/-- `MessageHandler::create_setup_message` (lines 106-145), before the final
`dump()`. The two `double` parameters are carried as their 64-bit patterns. -/
def create_setup_message (model_name : List Nat) (enable_search : Bool)
    (temperature top_p : Nat) (top_k : Int) (system_instruction_text : List Nat) : Json :=
  let setup := Json.object
    [("generationConfig", Json.object
        [("responseModalities", Json.array [Json.string (Cxx.utf8 "AUDIO")]),
         ("temperature", Json.number_float temperature),
         ("topK", Json.number_integer top_k),
         ("topP", Json.number_float top_p)]),
     ("inputAudioTranscription", Json.object []),
     ("model", Json.string (Cxx.utf8 "models/" ++ model_name)),
     ("outputAudioTranscription", Json.object [])]
  let setup :=
    if !system_instruction_text.isEmpty then
      setup.assign "systemInstruction"
        (Json.object [("parts", Json.array
          [Json.object [("text", Json.string system_instruction_text)]])])
    else setup
  let setup :=
    if enable_search then
      setup.assign "tools" (Json.array [Json.object [("googleSearch", Json.object [])]])
    else setup
  Json.object [("setup", setup)]

/-- The loop over `model_turn["parts"]` of lines 186-217. A part without
`inlineData`, or whose `inlineData` lacks `mimeType` or `data`, or whose
`mimeType` has no "audio" in it, is passed over; a `mimeType` or `data` that is
not a string throws, which the caller catches and answers with false. -/
def audio_from_parts : List Json → Option (List Int)
  | [] => none
  | part :: rest =>
    if part.contains "inlineData" then
      let inline_data := part.member "inlineData"
      if inline_data.contains "mimeType" && inline_data.contains "data" then
        match (inline_data.member "mimeType").get_string with
        | none => none
        | some mime_type =>
          if Cxx.found mime_type (Cxx.utf8 "audio") then
            match (inline_data.member "data").get_string with
            | none => none
            | some encoded_data =>
              let decoded := base64_decode encoded_data
              some (uint8_to_int16 decoded)
          else audio_from_parts rest
      else audio_from_parts rest
    else audio_from_parts rest

/-- `MessageHandler::extract_audio_from_response` (lines 169-228) on the
outcome of `json::parse` (`none`: the parse threw). The result is the content
of `audio_data` when the function returns true, `none` when it returns false. -/
def extract_audio_from_response (parsed : Option Json) : Option (List Int) :=
  match parsed with
  | none => none
  | some response =>
    if response.contains "serverContent" then
      let server_content := response.member "serverContent"
      if server_content.contains "modelTurn" then
        let model_turn := server_content.member "modelTurn"
        if model_turn.contains "parts" then
          audio_from_parts (model_turn.member "parts").items
        else none
      else none
    else none

/-- `MessageHandler::is_turn_complete` (lines 312-329) on the outcome of
`json::parse`. A `turnComplete` that is not a boolean throws; the exception is
caught and the function returns false. -/
def is_turn_complete (parsed : Option Json) : Bool :=
  match parsed with
  | none => false
  | some response =>
    if response.contains "serverContent" then
      let server_content := response.member "serverContent"
      if server_content.contains "turnComplete" then
        match (server_content.member "turnComplete").get_bool with
        | some b => b
        | none => false
      else false
    else false

/-- The elements of `serverContent.modelTurn.parts` of a message. -/
def model_parts (response : Json) : List Json :=
  match response.path ["serverContent", "modelTurn", "parts"] with
  | some parts => parts.items
  | none => []

/-- A part carries audio: its `inlineData` has a string `mimeType` that contains
"audio" and a string `data`. -/
def is_audio_part (part : Json) : Prop :=
  ∃ mime_type encoded_data : List Nat,
    part.path ["inlineData", "mimeType"] = some (Json.string mime_type) ∧
    part.path ["inlineData", "data"] = some (Json.string encoded_data) ∧
    Cxx.utf8 "audio" <:+: mime_type

/-- A part is passed over by the scan: it has no `inlineData`, or its
`inlineData` lacks `mimeType` or `data`, or its `mimeType` is a string without
"audio" in it. -/
def is_passed_over (part : Json) : Prop :=
  part.path ["inlineData", "mimeType"] = none ∨
  part.path ["inlineData", "data"] = none ∨
  ∃ mime_type : List Nat,
    part.path ["inlineData", "mimeType"] = some (Json.string mime_type) ∧
    ¬ Cxx.utf8 "audio" <:+: mime_type

/-- A message whose only part has an `inlineData` with an audio `mimeType` and
no `data`. -/
def audio_without_data_message : Json :=
  Json.object [("serverContent", Json.object [("modelTurn", Json.object [("parts",
    Json.array [Json.object [("inlineData",
      Json.object [("mimeType", Json.string (Cxx.utf8 "audio/pcm"))])]])])])]

/-- A message whose only part has an `inlineData` with an audio `mimeType` and
a `data` that is a number. -/
def audio_with_number_data_message : Json :=
  Json.object [("serverContent", Json.object [("modelTurn", Json.object [("parts",
    Json.array [Json.object [("inlineData",
      Json.object [("data", Json.number_integer 7),
                   ("mimeType", Json.string (Cxx.utf8 "audio/pcm"))])]])])])]

/-- A message with an input transcription "u" that also carries a tool-call
transcription "A". -/
def user_and_tool_message : Json :=
  Json.object
    [("serverContent", Json.object
       [("inputTranscription", Json.object [("text", Json.string (Cxx.utf8 "u"))])]),
     ("toolCallTranscription", Json.object [("text", Json.string (Cxx.utf8 "A"))])]

/-- The message `{serverContent: {turnComplete: b}}`. -/
def turn_complete_message (b : Json) : Json :=
  Json.object [("serverContent", Json.object [("turnComplete", b)])]

/-! ## Standard base64 (RFC 4648), from the specification's words -/

/-- The value of a group of bytes read as one big-endian number. -/
def group_value (group : List Nat) : Nat :=
  group.foldl (fun n a => n * 256 + a) 0

/-- The `count` six-bit digits of `n`, most significant first. -/
def sextets (n count : Nat) : List Nat :=
  (List.range count).map fun i => n / 64 ^ (count - 1 - i) % 64

/-- The character of the standard alphabet for the six-bit value `v`: the
values 0 to 25 are `A` to `Z`, 26 to 51 are `a` to `z`, 52 to 61 are `0` to `9`,
62 is `+` and 63 is `/`. -/
def standard_char (v : Nat) : Nat :=
  if v < 26 then 65 + v
  else if v < 52 then 97 + (v - 26)
  else if v < 62 then 48 + (v - 52)
  else if v = 62 then 43
  else 47

/-- The character code `c` belongs to the alphabet `A-Z a-z 0-9 + /`. -/
def is_standard_alphabet (c : Nat) : Bool :=
  (65 ≤ c && c ≤ 90) || (97 ≤ c && c ≤ 122) || (48 ≤ c && c ≤ 57) || c == 43 || c == 47

/-- Standard encoding of one group of one to three bytes: its bits, padded
with zero bits to a multiple of six, are taken six at a time, most
significant first, each six-bit value is replaced by its character of the
standard alphabet, and `=` fills the group up to four characters. -/
def standard_group (group : List Nat) : List Nat :=
  let bits := 8 * group.length
  let count := (bits + 5) / 6
  let n := group_value group * 2 ^ (6 * count - bits)
  (sextets n count).map standard_char ++ List.replicate (4 - count) 61

/-- Standard base64 of a byte sequence: group after group of three bytes,
the last group holding what is left. -/
def standard_base64 : List Nat → List Nat
  | [] => []
  | [a] => standard_group [a]
  | [a, b] => standard_group [a, b]
  | a :: b :: c :: rest => standard_group [a, b, c] ++ standard_base64 rest

/-- The little-endian signed 16-bit value of the byte pair `lo`, `hi`, in
two's complement. -/
def le_int16 (lo hi : Nat) : Int :=
  if lo + 256 * hi < 32768 then Int.ofNat (lo + 256 * hi)
  else Int.ofNat (lo + 256 * hi) - 65536

end MessageHandler

/-! ## The playback side of `src/src/audio_handler.cpp` -/

/-- The playback state of `AudioHandler`. -/
structure AudioHandler where
  playback_initialized_ : Bool
  playback_buffer_ : List Int
deriving DecidableEq, Repr

namespace AudioHandler

/-- `AudioHandler::play_audio` (lines 158-168): the new state and the value
returned. -/
def play_audio (handler : AudioHandler) (audio_data : List Int) : AudioHandler × Bool :=
  if audio_data.isEmpty || !handler.playback_initialized_ then (handler, false)
  else ({ handler with playback_buffer_ := handler.playback_buffer_ ++ audio_data }, true)

/-- The call `memcpy(output, src, n * sizeof(int16_t))` on sample arrays. -/
def memcpy (output src : List Int) (n : Nat) : List Int :=
  src.take n ++ output.drop n

/-- The call `memset(output + start, 0, n * sizeof(int16_t))` on a sample
array. -/
def memset_zero (output : List Int) (start n : Nat) : List Int :=
  output.take start ++ List.replicate n 0 ++ output.drop (start + n)

/-- `AudioHandler::playback_callback` (lines 170-192). `output` is the device
buffer of `frameCount` samples (one channel) as the device hands it over; the
result is the new state and the buffer as the callback leaves it. -/
def playback_callback (handler : AudioHandler) (output : List Int) (frameCount : Nat) :
    AudioHandler × List Int :=
  let frames_available := handler.playback_buffer_.length
  let frames_to_copy := min frameCount frames_available
  let copied :=
    if frames_to_copy > 0 then
      (memcpy output handler.playback_buffer_ frames_to_copy,
       { handler with playback_buffer_ := handler.playback_buffer_.drop frames_to_copy })
    else (output, handler)
  let filled :=
    if frames_to_copy < frameCount then
      memset_zero copied.1 frames_to_copy (frameCount - frames_to_copy)
    else copied.1
  (copied.2, filled)

end AudioHandler

namespace Main

/-- The samples an audio input message carries: the `data` of its media
chunks, base64-decoded and reassembled. -/
def audio_message_samples (message : Json) : List Int :=
  ((message.member "realtimeInput").member "mediaChunks").items.flatMap fun chunk =>
    match (chunk.member "data").get_string with
    | some encoded_audio =>
      MessageHandler.uint8_to_int16 (MessageHandler.base64_decode encoded_audio)
    | none => []

end Main

namespace MessageHandler

/-- An encoded string without its trailing `=` characters. -/
def strip_padding (encoded_string : List Nat) : List Nat :=
  (encoded_string.reverse.dropWhile fun c => c == 61).reverse

/-- An `inlineData` part with the given `mimeType` and `data` values. -/
def inline_part (mime data : Json) : Json :=
  Json.object [("inlineData", Json.object [("data", data), ("mimeType", mime)])]

/-- A message whose `serverContent.modelTurn.parts` is the array `parts`. -/
def parts_message (parts : List Json) : Json :=
  Json.object [("serverContent", Json.object [("modelTurn",
    Json.object [("parts", Json.array parts)])])]

/-- A message with three parts: the first has a number as `mimeType`, the
other two are audio parts carrying the base64 texts "AQI=" and "AwQ=". -/
def ill_typed_then_audio_message : Json :=
  parts_message
    [inline_part (Json.number_integer 5) (Json.string (Cxx.utf8 "AAA=")),
     inline_part (Json.string (Cxx.utf8 "audio/pcm")) (Json.string (Cxx.utf8 "AQI=")),
     inline_part (Json.string (Cxx.utf8 "audio/pcm")) (Json.string (Cxx.utf8 "AwQ="))]

/-- A message with two audio parts carrying the base64 texts "AQI=" and
"AwQ=". -/
def two_audio_parts_message : Json :=
  parts_message
    [inline_part (Json.string (Cxx.utf8 "audio/pcm")) (Json.string (Cxx.utf8 "AQI=")),
     inline_part (Json.string (Cxx.utf8 "audio/pcm")) (Json.string (Cxx.utf8 "AwQ="))]

end MessageHandler

/-! ## Configuration (`src/src/config.cpp`, `src/include/config.h`) -/

/-- The fields of `Config`. The two `double` fields are carried as their
64-bit patterns. -/
structure Config where
  model_name_ : List Nat
  temperature_ : Nat
  top_p_ : Nat
  top_k_ : Int
  response_modalities_ : List (List Nat)
  enable_search_ : Bool
  input_audio_transcription_ : Bool
  output_audio_transcription_ : Bool
  system_instruction_text_ : List Nat
  input_sample_rate_ : Int
  output_sample_rate_ : Int
  chunk_size_ : Int
  buffer_size_ : Int
  min_buffer_size_ : Int
  gain_factor_ : Int
deriving DecidableEq, Repr

namespace Config

/-- `Config::setDefaults` (lines 18-41); `1.0` is `0x3FF0000000000000` and
`0.95` is `0x3FEE666666666666`. -/
def setDefaults : Config :=
  { model_name_ := Cxx.utf8 "gemini-2.5-flash-native-audio-preview-09-2025"
    temperature_ := 0x3FF0000000000000
    top_p_ := 0x3FEE666666666666
    top_k_ := 40
    response_modalities_ := [Cxx.utf8 "AUDIO"]
    enable_search_ := false
    input_audio_transcription_ := true
    output_audio_transcription_ := true
    system_instruction_text_ := []
    input_sample_rate_ := 16000
    output_sample_rate_ := 24000
    chunk_size_ := 16000
    buffer_size_ := 24000
    min_buffer_size_ := 7200
    gain_factor_ := 5 }

end Config

namespace Main

open MessageHandler Cxx

/-! ### The audio part of the message callback (lines 204-212) -/

/-- The audio part of the message callback: a block found in the message is
pushed to `g_audio_queue`. -/
def on_audio (message : Option Json) (s : DrainState) : DrainState :=
  match extract_audio_from_response message with
  | some audio_data => enqueue audio_data s
  | none => s

/-- The transcript part of the message callback over a sequence of inbound
messages, in arrival order. -/
def on_transcripts (messages : List (Option Json)) (s : TranscriptState) : TranscriptState :=
  messages.foldl (fun st message => on_transcript message st) s

/-- The two empty transcript buffers of lines 166-167. -/
def TranscriptState.empty : TranscriptState :=
  { user_transcript_buffer := [], ai_transcript_buffer := [], printed := [] }

/-! ### Startup of `main` (lines 90-258) -/

/-- What `main` observes of its environment before it starts its threads: the
command line, the configuration file, the audio device and the transport.
`config_from_file` is the outcome of `Config(config_path)`: the configuration
or the message of the `std::runtime_error` it throws. `alive_after_setup` is
the value of `g_running && ws_client.is_connected()` after the two-second
wait of line 250. -/
structure StartupEnv where
  help : Bool
  config_file_good : Bool
  config_from_file : Except (List Nat) Config
  dummy_audio : Bool
  enable_search_flag : Bool
  api_key : List Nat
  audio_initialize : Bool
  connect : Bool
  alive_after_setup : Bool

/-- How the startup of `main` ends: `main` returns `status`, after having
called `ws_client.connect()` or not, or the setup message built from `config`
has been sent and `main` goes on to start its threads. -/
inductive StartupResult where
  | returned (status : Int) (connect_called : Bool) : StartupResult
  | session_started (config : Config) (enable_search : Bool) : StartupResult
deriving DecidableEq, Repr

/-- Lines 102-119 of `main`: the configuration in use after loading. -/
def load_config (env : StartupEnv) : Config :=
  if env.config_file_good then
    match env.config_from_file with
    | Except.ok config => config
    | Except.error _ => Config.setDefaults
  else Config.setDefaults

/-- Lines 90-258 of `main`, up to the point where it starts its threads: the
help flag, the configuration, the API key, the audio handler, the connection,
the setup message and the check after the two-second wait. -/
def main_startup (env : StartupEnv) : StartupResult :=
  if env.help then StartupResult.returned 0 false
  else
    let config := load_config env
    let enable_search := env.enable_search_flag || config.enable_search_
    if env.api_key.isEmpty then StartupResult.returned 1 false
    else if !env.dummy_audio && !env.audio_initialize then StartupResult.returned 1 false
    else if !env.connect then StartupResult.returned 1 true
    else if !env.alive_after_setup then StartupResult.returned 1 true
    else StartupResult.session_started config enable_search

/-- An environment with a configuration file that exists and cannot be
loaded, an API key, dummy audio and a service that is reachable and stays
connected. -/
def broken_config_env : StartupEnv :=
  { help := false, config_file_good := true,
    config_from_file := Except.error (utf8 "JSON Parse Error"),
    dummy_audio := true, enable_search_flag := false, api_key := utf8 "key",
    audio_initialize := false, connect := true, alive_after_setup := true }

/-! ### Shutdown of `main` (lines 370-389) and the flags it depends on -/

/-- The two flags the wait loop of `main` polls: `g_running` and the
`connected_` member of the WebSocket client. -/
structure SessionFlags where
  g_running : Bool
  connected_ : Bool
deriving DecidableEq, Repr

/-- What can happen while `main` waits: the signal handler runs on SIGINT, a
read fails (`async_receive` with an error other than `closed`), a write fails
(`send`), or the server closes the connection (`async_receive` with
`websocket::error::closed`). -/
inductive SessionEvent where
  | interrupt : SessionEvent
  | read_error : SessionEvent
  | send_error : SessionEvent
  | server_closed : SessionEvent
deriving DecidableEq, Repr

/-- Effect of an event on the flags: `signal_handler` (main.cpp lines 23-28),
the error callback (lines 221-224) and the completion handler of
`async_receive` (websocket_client.cpp lines 117-127). -/
def SessionEvent.apply : SessionEvent → SessionFlags → SessionFlags
  | SessionEvent.interrupt, s => { s with g_running := false }
  | SessionEvent.read_error, _ => { g_running := false, connected_ := false }
  | SessionEvent.send_error, s => { s with g_running := false }
  | SessionEvent.server_closed, s => { s with connected_ := false }

/-- The wait loop `while (g_running && ws_client.is_connected())` of lines
371-373 over the events that occur meanwhile: the flags when the loop is left,
`none` when it is still waiting after the last event. -/
def wait_loop : List SessionEvent → SessionFlags → Option SessionFlags
  | [], s => if s.g_running && s.connected_ then none else some s
  | ev :: rest, s =>
    if s.g_running && s.connected_ then wait_loop rest (ev.apply s) else some s

/-- The cleanup of lines 375-385 on the flags: `ws_client.close()` clears
`connected_`; nothing writes `g_running`. -/
def cleanup (s : SessionFlags) : SessionFlags :=
  { s with connected_ := false }

/-- The flags at `playback_thread.join()` (line 388) for a session that
starts running and connected. -/
def flags_at_join (events : List SessionEvent) : Option SessionFlags :=
  (wait_loop events { g_running := true, connected_ := true }).map cleanup

/-- The playback thread, which loops `while (g_running)` (line 271), leaves
its loop, so that the join returns. -/
def playback_thread_stops (s : SessionFlags) : Bool := !s.g_running

end Main

namespace MessageHandler

end MessageHandler

namespace Main

/-- The gain-and-clamp image of a sample, from the specification's words: the
exact product `sample * gainFactor`, saturated to the signed 16-bit range. -/
def gain_and_clamp (gainFactor sample : Int) : Int :=
  max (-32768) (min 32767 (sample * gainFactor))

end Main

/-! # Theorems -/

namespace MessageHandler

set_option maxRecDepth 100000 in
theorem enc_bits : ∀ a < 256,
    (a &&& 0xfc) >>> 2 = a / 4 ∧ (a &&& 0x03) <<< 4 = a % 4 * 16 ∧
    (a &&& 0xf0) >>> 4 = a / 16 ∧ (a &&& 0x0f) <<< 2 = a % 16 * 4 ∧
    (a &&& 0xc0) >>> 6 = a / 64 ∧ a &&& 0x3f = a % 64 := by decide

set_option maxRecDepth 100000 in
theorem dec_bits : ∀ k < 64,
    k <<< 2 = k * 4 ∧ (k &&& 0x30) >>> 4 = k / 16 ∧ (k &&& 0xf) <<< 4 = k % 16 * 16 ∧
    (k &&& 0x3c) >>> 2 = k / 4 ∧ (k &&& 0x3) <<< 6 = k % 4 * 64 := by decide

set_option maxRecDepth 100000 in
theorem alphabet_ok : ∀ k < 64,
    decode_guard (base64_char_at k) = true ∧ base64_find (base64_char_at k) = k ∧
    base64_char_at k < 256 := by decide

theorem encode_group_eq (a b c : Nat) (ha : a < 256) (hb : b < 256) (hc : c < 256)
    (c4 : CharArray4) :
    encode_group ⟨a, b, c⟩ c4 =
      ⟨a / 4, a % 4 * 16 + b / 16, b % 16 * 4 + c / 64, c % 64⟩ := by
  obtain ⟨a1, a2, -, -, -, -⟩ := enc_bits a ha
  obtain ⟨-, -, b3, b4, -, -⟩ := enc_bits b hb
  obtain ⟨-, -, -, -, c5, c6⟩ := enc_bits c hc
  simp only [encode_group, encode_first3, a1, a2, b3, b4, c5, c6, CharArray4.mk.injEq]
  omega

theorem encode_loop_group (a b c : Nat) (rest : List Nat) (s : CodecState) (hi : s.i = 0)
    (ha : a < 256) (hb : b < 256) (hc : c < 256) :
    base64_encode_loop (a :: b :: c :: rest) s =
      base64_encode_loop rest
        { i := 0, char_array_3 := ⟨a, b, c⟩,
          char_array_4 := ⟨a / 4, a % 4 * 16 + b / 16, b % 16 * 4 + c / 64, c % 64⟩,
          ret := s.ret ++ quad a b c } := by
  simp [base64_encode_loop, hi, CharArray3.set, Nat.mod_eq_of_lt ha, Nat.mod_eq_of_lt hb,
    Nat.mod_eq_of_lt hc, encode_group_eq a b c ha hb hc, List.range, List.range.loop,
    CharArray4.get, quad]

theorem encode_closed_form : ∀ (data : List Nat) (s : CodecState), s.i = 0 →
    (∀ x ∈ data, x < 256) →
    base64_encode_tail (base64_encode_loop data s) = s.ret ++ encoded data
  | [], s, hi, _ => by simp [base64_encode_loop, base64_encode_tail, hi, encoded]
  | [a], s, hi, h => by
    have ha : a < 256 := h a (by simp)
    obtain ⟨a1, a2, -, -, -, -⟩ := enc_bits a ha
    have a1' : (a &&& 252) >>> 2 = a / 4 := a1
    have a2' : (a &&& 3) <<< 4 = a % 4 * 16 := a2
    have h4 : a / 4 % 256 = a / 4 := by omega
    have h5 : a % 4 * 16 % 256 = a % 4 * 16 := by omega
    simp [base64_encode_loop, base64_encode_tail, hi, encoded, CharArray3.set,
      Nat.mod_eq_of_lt ha, List.range', List.range, List.range.loop, encode_first3,
      CharArray4.get, a1', a2', h4, h5, List.replicate]
  | [a, b], s, hi, h => by
    have ha : a < 256 := h a (by simp)
    have hb : b < 256 := h b (by simp)
    obtain ⟨a1, a2, -, -, -, -⟩ := enc_bits a ha
    obtain ⟨-, -, b3, b4, -, -⟩ := enc_bits b hb
    have a1' : (a &&& 252) >>> 2 = a / 4 := a1
    have a2' : (a &&& 3) <<< 4 = a % 4 * 16 := a2
    have b3' : (b &&& 240) >>> 4 = b / 16 := b3
    have b4' : (b &&& 15) <<< 2 = b % 16 * 4 := b4
    have h4 : a / 4 % 256 = a / 4 := by omega
    have h5 : (a % 4 * 16 + b / 16) % 256 = a % 4 * 16 + b / 16 := by omega
    have h6 : b % 16 * 4 % 256 = b % 16 * 4 := by omega
    simp [base64_encode_loop, base64_encode_tail, hi, encoded, CharArray3.set,
      Nat.mod_eq_of_lt ha, Nat.mod_eq_of_lt hb, List.range', List.range, List.range.loop,
      encode_first3, CharArray4.get, a1', a2', b3', b4', h4, h5, h6, List.replicate]
  | a :: b :: c :: rest, s, hi, h => by
    have ha : a < 256 := h a (by simp)
    have hb : b < 256 := h b (by simp)
    have hc : c < 256 := h c (by simp)
    rw [encode_loop_group a b c rest s hi ha hb hc,
      encode_closed_form rest _ rfl (fun x hx => h x (by simp [hx]))]
    simp [encoded]

theorem decode_loop_group (k0 k1 k2 k3 : Nat) (rest : List Nat) (s : CodecState)
    (hi : s.i = 0) (h0 : k0 < 64) (h1 : k1 < 64) (h2 : k2 < 64) (h3 : k3 < 64) :
    base64_decode_loop
        (base64_char_at k0 :: base64_char_at k1 :: base64_char_at k2 ::
          base64_char_at k3 :: rest) s =
      base64_decode_loop rest
        { i := 0, char_array_3 := decode_group ⟨k0, k1, k2, k3⟩ s.char_array_3,
          char_array_4 := ⟨k0, k1, k2, k3⟩,
          ret := s.ret ++
            [(decode_group ⟨k0, k1, k2, k3⟩ s.char_array_3).e0,
             (decode_group ⟨k0, k1, k2, k3⟩ s.char_array_3).e1,
             (decode_group ⟨k0, k1, k2, k3⟩ s.char_array_3).e2] } := by
  obtain ⟨g0, f0, l0⟩ := alphabet_ok k0 h0
  obtain ⟨g1, f1, l1⟩ := alphabet_ok k1 h1
  obtain ⟨g2, f2, l2⟩ := alphabet_ok k2 h2
  obtain ⟨g3, f3, l3⟩ := alphabet_ok k3 h3
  have m0 : k0 % 256 = k0 := by omega
  have m1 : k1 % 256 = k1 := by omega
  have m2 : k2 % 256 = k2 := by omega
  have m3 : k3 % 256 = k3 := by omega
  simp [base64_decode_loop, hi, g0, g1, g2, g3, CharArray4.set, CharArray4.get,
    find_first, List.range, List.range.loop, Nat.mod_eq_of_lt l0, Nat.mod_eq_of_lt l1,
    Nat.mod_eq_of_lt l2, Nat.mod_eq_of_lt l3, f0, f1, f2, f3, m0, m1, m2, m3,
    CharArray3.get]

theorem decode_group_quad (a b c : Nat) (ha : a < 256) (hb : b < 256) (hc : c < 256)
    (c3 : CharArray3) :
    decode_group ⟨a / 4, a % 4 * 16 + b / 16, b % 16 * 4 + c / 64, c % 64⟩ c3 =
      ⟨a, b, c⟩ := by
  obtain ⟨p1, -, -, -, -⟩ := dec_bits (a / 4) (by omega)
  obtain ⟨-, q2, q3, -, -⟩ := dec_bits (a % 4 * 16 + b / 16) (by omega)
  obtain ⟨-, -, -, r4, r5⟩ := dec_bits (b % 16 * 4 + c / 64) (by omega)
  simp only [decode_group, decode_first2, p1, q2, q3, r4, r5, CharArray3.mk.injEq]
  omega

theorem decode_closed_form : ∀ (data : List Nat) (s : CodecState), s.i = 0 →
    (∀ x ∈ data, x < 256) →
    base64_decode_tail (base64_decode_loop (encoded data) s) = s.ret ++ data
  | [], s, hi, _ => by simp [base64_decode_loop, base64_decode_tail, hi, encoded]
  | [a], s, hi, h => by
    have ha : a < 256 := h a (by simp)
    obtain ⟨g0, f0, l0⟩ := alphabet_ok (a / 4) (by omega)
    obtain ⟨g1, f1, l1⟩ := alphabet_ok (a % 4 * 16) (by omega)
    obtain ⟨p1, -, -, -, -⟩ := dec_bits (a / 4) (by omega)
    obtain ⟨-, q2, -, -, -⟩ := dec_bits (a % 4 * 16) (by omega)
    have m0 : a / 4 % 256 = a / 4 := by omega
    have m1 : a % 4 * 16 % 256 = a % 4 * 16 := by omega
    have p1' : (a / 4) <<< 2 = a / 4 * 4 := p1
    have q2' : (a % 4 * 16 &&& 48) >>> 4 = a % 4 * 16 / 16 := q2
    have g61 : decode_guard 61 = false := by decide
    simp [base64_decode_loop, base64_decode_tail, hi, encoded, g0, g1, g61,
      CharArray4.set, CharArray4.get, find_first, List.range, List.range.loop,
      Nat.mod_eq_of_lt l0, Nat.mod_eq_of_lt l1, f0, f1, m0, m1, decode_first2,
      CharArray3.get, p1', q2']
    omega
  | [a, b], s, hi, h => by
    have ha : a < 256 := h a (by simp)
    have hb : b < 256 := h b (by simp)
    obtain ⟨g0, f0, l0⟩ := alphabet_ok (a / 4) (by omega)
    obtain ⟨g1, f1, l1⟩ := alphabet_ok (a % 4 * 16 + b / 16) (by omega)
    obtain ⟨g2, f2, l2⟩ := alphabet_ok (b % 16 * 4) (by omega)
    obtain ⟨p1, -, -, -, -⟩ := dec_bits (a / 4) (by omega)
    obtain ⟨-, q2, q3, -, -⟩ := dec_bits (a % 4 * 16 + b / 16) (by omega)
    obtain ⟨-, -, -, r4, -⟩ := dec_bits (b % 16 * 4) (by omega)
    have m0 : a / 4 % 256 = a / 4 := by omega
    have m1 : (a % 4 * 16 + b / 16) % 256 = a % 4 * 16 + b / 16 := by omega
    have m2 : b % 16 * 4 % 256 = b % 16 * 4 := by omega
    have p1' : (a / 4) <<< 2 = a / 4 * 4 := p1
    have q2' : (a % 4 * 16 + b / 16 &&& 48) >>> 4 = (a % 4 * 16 + b / 16) / 16 := q2
    have q3' : (a % 4 * 16 + b / 16 &&& 15) <<< 4 = (a % 4 * 16 + b / 16) % 16 * 16 := q3
    have r4' : (b % 16 * 4 &&& 60) >>> 2 = b % 16 * 4 / 4 := r4
    have g61 : decode_guard 61 = false := by decide
    simp [base64_decode_loop, base64_decode_tail, hi, encoded, g0, g1, g2, g61,
      CharArray4.set, CharArray4.get, find_first, List.range, List.range.loop,
      Nat.mod_eq_of_lt l0, Nat.mod_eq_of_lt l1, Nat.mod_eq_of_lt l2, f0, f1, f2, m0, m1, m2,
      decode_first2, CharArray3.get, p1', q2', q3', r4']
    omega
  | a :: b :: c :: rest, s, hi, h => by
    have ha : a < 256 := h a (by simp)
    have hb : b < 256 := h b (by simp)
    have hc : c < 256 := h c (by simp)
    have hq := decode_loop_group (a / 4) (a % 4 * 16 + b / 16) (b % 16 * 4 + c / 64) (c % 64)
      (encoded rest) s hi (by omega) (by omega) (by omega) (by omega)
    simp only [encoded, quad, List.cons_append, List.nil_append]
    rw [hq, decode_closed_form rest _ rfl (fun x hx => h x (by simp [hx])),
      decode_group_quad a b c ha hb hc]
    simp

/-- C1: for every byte sequence `b` (every entry below 256), decoding the base64
encoding of `b` gives `b` back, whatever the local arrays held at entry. -/
theorem base64_decode_encode (u3 v3 : CharArray3) (u4 v4 : CharArray4) (b : List Nat)
    (hb : ∀ x ∈ b, x < 256) :
    base64_decode_with v3 v4 (base64_encode_with u3 u4 b) = b := by
  unfold base64_decode_with base64_encode_with
  rw [encode_closed_form b _ rfl hb]
  simpa using decode_closed_form b { i := 0, char_array_3 := v3, char_array_4 := v4, ret := [] }
    rfl hb

theorem base64_decode_encode_witness :
    (∀ x ∈ [77, 97, 110, 255, 0], x < 256) ∧
    base64_decode (base64_encode [77, 97, 110, 255, 0]) = [77, 97, 110, 255, 0] :=
  ⟨by decide, base64_decode_encode _ _ _ _ _ (by decide)⟩

theorem low_byte (v : Int) : (v % 4294967296).toNat % 256 = (v % 256).toNat := by
  omega

theorem to_int32_small (m : Nat) (hm : m < 256) :
    (to_int32 (Int.ofNat m) % 256).toNat = m := by
  unfold to_int32
  simp only [Int.ofNat_eq_coe]
  omega

theorem and_0xFF (v : Int) : to_uint8 (int_and v 0xFF) = (v % 256).toNat := by
  have h : (v % 4294967296).toNat &&& 255 = (v % 4294967296).toNat % 256 :=
    Nat.and_pow_two_sub_one_eq_mod (v % 4294967296).toNat 8
  have e : ((0xFF : Int) % 4294967296).toNat = 255 := by decide
  unfold to_uint8 int_and
  rw [e, h, to_int32_small _ (Nat.mod_lt _ (by decide)), low_byte]

theorem lor_shift (lo hi : Nat) (h : lo < 256) : lo ||| (hi <<< 8) = lo + 256 * hi := by
  have := Nat.mul_add_lt_is_or (i := 8) (b := lo) h hi
  rw [Nat.shiftLeft_eq, Nat.lor_comm, Nat.mul_comm hi]
  omega

theorem shr8 (x : Int) : x >>> (8 : Nat) = x / 256 := by
  rw [Int.shiftRight_eq_div_pow]; rfl

theorem sample_pair (x : Int) (h1 : -32768 ≤ x) (h2 : x ≤ 32767) :
    to_int16 (Int.ofNat ((x % 256).toNat ||| (((x >>> (8 : Nat)) % 256).toNat <<< 8))) = x := by
  have hlt : (x % 256).toNat < 256 := by omega
  rw [lor_shift _ _ hlt, shr8]
  unfold to_int16
  simp only [Int.ofNat_eq_coe]
  clear hlt
  push_cast
  omega

theorem int16_to_uint8_cons (x : Int) (rest : List Int) :
    int16_to_uint8 (x :: rest) =
      (x % 256).toNat :: ((x >>> (8 : Nat)) % 256).toNat :: int16_to_uint8 rest := by
  show to_uint8 (int_and x 0xFF) :: to_uint8 (int_and (x >>> (8 : Nat)) 0xFF) :: _ = _
  rw [and_0xFF, and_0xFF]

theorem uint8_to_int16_cons (lo hi : Nat) (rest : List Nat) :
    uint8_to_int16 (lo :: hi :: rest) =
      to_int16 (Int.ofNat (lo ||| (hi <<< 8))) :: uint8_to_int16 rest := rfl

/-- C2: for every sequence `s` of signed 16-bit samples, packing `s` into bytes
with `int16_to_uint8` and reassembling consecutive byte pairs as little-endian
signed 16-bit integers (the conversion loop of `extract_audio_from_response`)
returns exactly `s`. -/
theorem uint8_to_int16_int16_to_uint8 (s : List Int)
    (hs : ∀ x ∈ s, -32768 ≤ x ∧ x ≤ 32767) :
    uint8_to_int16 (int16_to_uint8 s) = s := by
  induction s with
  | nil => rfl
  | cons x rest ih =>
    have hx := hs x (List.mem_cons_self _ _)
    rw [int16_to_uint8_cons, uint8_to_int16_cons, sample_pair x hx.1 hx.2,
      ih (fun y hy => hs y (List.mem_cons_of_mem _ hy))]

theorem uint8_to_int16_int16_to_uint8_witness :
    (∀ x ∈ [-1, -32768, 32767, 0, 258], -32768 ≤ x ∧ x ≤ 32767) ∧
    uint8_to_int16 (int16_to_uint8 [-1, -32768, 32767, 0, 258]) = [-1, -32768, 32767, 0, 258] :=
  ⟨by decide, uint8_to_int16_int16_to_uint8 _ (by decide)⟩

end MessageHandler

namespace Main

open MessageHandler Cxx

/-! ## Playback drain loop -/

theorem absorb_queue_eq (queue : List (List Int)) (audio_buffer : List Int) :
    absorb_queue queue audio_buffer = audio_buffer ++ queue.flatten := by
  induction queue generalizing audio_buffer with
  | nil => simp [absorb_queue]
  | cons data queue ih => simp [absorb_queue, ih]

/-- C3: in non-dummy mode, a drain tick that finds at least `BUFFER_SIZE` (the high
watermark) samples buffered after absorbing the queue hands exactly the first
`BUFFER_SIZE` samples to `play_audio` and keeps exactly the remaining ones, in
order. In particular, after one block of `BUFFER_SIZE + k` samples is enqueued
into the empty state, one tick hands over `BUFFER_SIZE` samples and leaves `k`. -/
theorem playback_tick_high_watermark (BUFFER_SIZE MIN_BUFFER_SIZE : Nat) :
    (∀ (arrivals : List (List Int)) (s : DrainState),
      BUFFER_SIZE ≤ (s.audio_buffer ++ s.g_audio_queue.flatten).length →
      (playback_tick BUFFER_SIZE MIN_BUFFER_SIZE false arrivals s).2 =
          [(s.audio_buffer ++ s.g_audio_queue.flatten).take BUFFER_SIZE] ∧
        ((s.audio_buffer ++ s.g_audio_queue.flatten).take BUFFER_SIZE).length = BUFFER_SIZE ∧
        (playback_tick BUFFER_SIZE MIN_BUFFER_SIZE false arrivals s).1.audio_buffer =
          (s.audio_buffer ++ s.g_audio_queue.flatten).drop BUFFER_SIZE ∧
        (playback_tick BUFFER_SIZE MIN_BUFFER_SIZE false arrivals s).1.audio_buffer.length =
          (s.audio_buffer ++ s.g_audio_queue.flatten).length - BUFFER_SIZE) ∧
    (∀ (block : List Int) (k : Nat), block.length = BUFFER_SIZE + k →
      (playback_tick BUFFER_SIZE MIN_BUFFER_SIZE false []
          (enqueue block DrainState.empty)).2 = [block.take BUFFER_SIZE] ∧
        (block.take BUFFER_SIZE).length = BUFFER_SIZE ∧
        (playback_tick BUFFER_SIZE MIN_BUFFER_SIZE false []
          (enqueue block DrainState.empty)).1.audio_buffer = block.drop BUFFER_SIZE ∧
        (playback_tick BUFFER_SIZE MIN_BUFFER_SIZE false []
          (enqueue block DrainState.empty)).1.audio_buffer.length = k) := by
  have general : ∀ (arrivals : List (List Int)) (s : DrainState),
      BUFFER_SIZE ≤ (s.audio_buffer ++ s.g_audio_queue.flatten).length →
      (playback_tick BUFFER_SIZE MIN_BUFFER_SIZE false arrivals s).2 =
          [(s.audio_buffer ++ s.g_audio_queue.flatten).take BUFFER_SIZE] ∧
        ((s.audio_buffer ++ s.g_audio_queue.flatten).take BUFFER_SIZE).length = BUFFER_SIZE ∧
        (playback_tick BUFFER_SIZE MIN_BUFFER_SIZE false arrivals s).1.audio_buffer =
          (s.audio_buffer ++ s.g_audio_queue.flatten).drop BUFFER_SIZE ∧
        (playback_tick BUFFER_SIZE MIN_BUFFER_SIZE false arrivals s).1.audio_buffer.length =
          (s.audio_buffer ++ s.g_audio_queue.flatten).length - BUFFER_SIZE := by
    intro arrivals s h
    have hge : (s.audio_buffer ++ s.g_audio_queue.flatten).length ≥ BUFFER_SIZE := h
    have ht : playback_tick BUFFER_SIZE MIN_BUFFER_SIZE false arrivals s =
        ({ g_audio_queue := arrivals,
           audio_buffer := (s.audio_buffer ++ s.g_audio_queue.flatten).drop BUFFER_SIZE },
          [(s.audio_buffer ++ s.g_audio_queue.flatten).take BUFFER_SIZE]) := by
      simp only [playback_tick, absorb_queue_eq, hge, if_true, Bool.not_false]
    rw [ht]
    refine ⟨rfl, ?_, rfl, ?_⟩
    · rw [List.length_take]; omega
    · exact List.length_drop _ _
  refine ⟨general, ?_⟩
  intro block k hk
  have hb : BUFFER_SIZE ≤
      ((enqueue block DrainState.empty).audio_buffer ++
        (enqueue block DrainState.empty).g_audio_queue.flatten).length := by
    simp [enqueue, DrainState.empty, hk]
  have hg := general [] (enqueue block DrainState.empty) hb
  have e : (enqueue block DrainState.empty).audio_buffer ++
      (enqueue block DrainState.empty).g_audio_queue.flatten = block := by
    simp [enqueue, DrainState.empty]
  rw [e] at hg
  refine ⟨hg.1, hg.2.1, hg.2.2.1, ?_⟩
  rw [hg.2.2.2, hk]; omega

theorem playback_tick_high_watermark_witness :
    (playback_tick 3 1 false [[9]] { g_audio_queue := [[1, 2], [3, 4]], audio_buffer := [0] }).2 =
        [[0, 1, 2]] ∧
      (playback_tick 3 1 false [[9]]
        { g_audio_queue := [[1, 2], [3, 4]], audio_buffer := [0] }).1.audio_buffer = [3, 4] ∧
      (playback_tick 3 1 false [] (enqueue [5, 6, 7, 8, 9] DrainState.empty)).2 = [[5, 6, 7]] ∧
      (playback_tick 3 1 false []
        (enqueue [5, 6, 7, 8, 9] DrainState.empty)).1.audio_buffer.length = 2 :=
  ⟨((playback_tick_high_watermark 3 1).1 [[9]]
      { g_audio_queue := [[1, 2], [3, 4]], audio_buffer := [0] } (by decide)).1,
   ((playback_tick_high_watermark 3 1).1 [[9]]
      { g_audio_queue := [[1, 2], [3, 4]], audio_buffer := [0] } (by decide)).2.2.1,
   ((playback_tick_high_watermark 3 1).2 [5, 6, 7, 8, 9] 2 (by decide)).1,
   ((playback_tick_high_watermark 3 1).2 [5, 6, 7, 8, 9] 2 (by decide)).2.2.2⟩

/-- C4: in non-dummy mode, a drain tick that finds `n` samples buffered with
`MIN_BUFFER_SIZE ≤ n < BUFFER_SIZE` while no further block comes in hands all
`n` samples to `play_audio`, in order, and leaves the buffer empty. -/
theorem playback_tick_low_watermark (BUFFER_SIZE MIN_BUFFER_SIZE : Nat) (s : DrainState)
    (hlow : MIN_BUFFER_SIZE ≤ (s.audio_buffer ++ s.g_audio_queue.flatten).length)
    (hhigh : (s.audio_buffer ++ s.g_audio_queue.flatten).length < BUFFER_SIZE) :
    playback_tick BUFFER_SIZE MIN_BUFFER_SIZE false [] s =
      ({ g_audio_queue := [], audio_buffer := [] },
        [s.audio_buffer ++ s.g_audio_queue.flatten]) := by
  have h1 : ¬ (s.audio_buffer ++ s.g_audio_queue.flatten).length ≥ BUFFER_SIZE := by omega
  have h2 : (s.audio_buffer ++ s.g_audio_queue.flatten).length ≥ MIN_BUFFER_SIZE := hlow
  simp only [playback_tick, absorb_queue_eq, h1, h2, if_true, if_false, Bool.not_false,
    List.isEmpty_nil, Bool.and_self]

theorem playback_tick_low_watermark_witness :
    (1 ≤ ([0] ++ [[1, 2], [3]].flatten).length ∧ ([0] ++ [[1, 2], [3]].flatten).length < 5) ∧
      playback_tick 5 1 false [] { g_audio_queue := [[1, 2], [3]], audio_buffer := [0] } =
        ({ g_audio_queue := [], audio_buffer := [] }, [[0, 1, 2, 3]]) :=
  ⟨by decide, playback_tick_low_watermark 5 1
    { g_audio_queue := [[1, 2], [3]], audio_buffer := [0] } (by decide) (by decide)⟩

theorem playback_tick_conserves (BUFFER_SIZE MIN_BUFFER_SIZE : Nat)
    (arrivals : List (List Int)) (s : DrainState) :
    (playback_tick BUFFER_SIZE MIN_BUFFER_SIZE false arrivals s).2.flatten ++
        (playback_tick BUFFER_SIZE MIN_BUFFER_SIZE false arrivals s).1.audio_buffer ++
        (playback_tick BUFFER_SIZE MIN_BUFFER_SIZE false arrivals s).1.g_audio_queue.flatten =
      s.audio_buffer ++ s.g_audio_queue.flatten ++ arrivals.flatten := by
  simp only [playback_tick, absorb_queue_eq, Bool.not_false, if_true, Bool.and_true]
  split
  · simp
  · split
    · split <;> simp
    · simp

theorem drain_run_conserves (BUFFER_SIZE MIN_BUFFER_SIZE : Nat) (events : List DrainEvent) :
    ∀ (s : DrainState) (played : List (List Int)),
      (drain_run BUFFER_SIZE MIN_BUFFER_SIZE false events (s, played)).2.flatten ++
          (drain_run BUFFER_SIZE MIN_BUFFER_SIZE false events (s, played)).1.audio_buffer ++
          (drain_run BUFFER_SIZE MIN_BUFFER_SIZE false events (s, played)).1.g_audio_queue.flatten =
        played.flatten ++ s.audio_buffer ++ s.g_audio_queue.flatten ++
          (events.flatMap DrainEvent.blocks).flatten := by
  induction events with
  | nil => intro s played; simp [drain_run]
  | cons ev rest ih =>
    intro s played
    cases ev with
    | enqueue audio_data =>
      simp only [drain_run, ih, enqueue, DrainEvent.blocks, List.flatMap_cons]
      simp
    | tick arrivals =>
      simp only [drain_run, ih, DrainEvent.blocks, List.flatMap_cons]
      have h := congrArg
        (fun l => played.flatten ++ (l ++ (rest.flatMap DrainEvent.blocks).flatten))
        (playback_tick_conserves BUFFER_SIZE MIN_BUFFER_SIZE arrivals s)
      simpa [List.append_assoc] using h

/-- C5: for every finite sequence of enqueue operations and drain ticks in
non-dummy mode, starting from the empty queue and buffer, all blocks handed to
`play_audio` so far, followed by the drain buffer, followed by the blocks still
queued, are exactly the enqueued blocks in arrival order. -/
theorem drain_run_fifo (BUFFER_SIZE MIN_BUFFER_SIZE : Nat) (events : List DrainEvent) :
    (drain_run BUFFER_SIZE MIN_BUFFER_SIZE false events (DrainState.empty, [])).2.flatten ++
        (drain_run BUFFER_SIZE MIN_BUFFER_SIZE false events
          (DrainState.empty, [])).1.audio_buffer ++
        (drain_run BUFFER_SIZE MIN_BUFFER_SIZE false events
          (DrainState.empty, [])).1.g_audio_queue.flatten =
      (events.flatMap DrainEvent.blocks).flatten := by
  rw [drain_run_conserves]
  simp [DrainState.empty]

end Main

namespace Main

open MessageHandler Cxx

/-! ## Recording callback -/

theorem record_append (CHUNK_SIZE : Nat) (GAIN_FACTOR : Int) (xs ys : List (List Int))
    (s : CaptureState) :
    record CHUNK_SIZE GAIN_FACTOR (xs ++ ys) s =
      record CHUNK_SIZE GAIN_FACTOR ys (record CHUNK_SIZE GAIN_FACTOR xs s) := by
  simp [record, List.foldl_append]

theorem record_below_chunk (CHUNK_SIZE : Nat) (GAIN_FACTOR : Int) (samples : List Int) :
    ∀ (acc : List Int) (sent : List Json), acc.length + samples.length < CHUNK_SIZE →
      record CHUNK_SIZE GAIN_FACTOR (samples.map fun x => [x])
          { accumulated_audio := acc, sent := sent } =
        { accumulated_audio := acc ++ samples.map (amplify GAIN_FACTOR), sent := sent } := by
  induction samples with
  | nil => intro acc sent _; simp [record]
  | cons x rest ih =>
    intro acc sent h
    have hlen : ¬ (acc ++ [amplify GAIN_FACTOR x]).length ≥ CHUNK_SIZE := by
      simp only [List.length_append, List.length_cons, List.length_nil] at h ⊢
      omega
    have hstep : recording_callback CHUNK_SIZE GAIN_FACTOR [x]
        { accumulated_audio := acc, sent := sent } =
        { accumulated_audio := acc ++ [amplify GAIN_FACTOR x], sent := sent } := by
      simp only [recording_callback, List.map_cons, List.map_nil, hlen, if_false]
    have hrest : (acc ++ [amplify GAIN_FACTOR x]).length + rest.length < CHUNK_SIZE := by
      simp only [List.length_append, List.length_cons, List.length_nil] at h ⊢
      omega
    have := ih (acc ++ [amplify GAIN_FACTOR x]) sent hrest
    simp only [record, List.map_cons, List.foldl_cons, hstep] at this ⊢
    rw [this]
    simp

/-- C6: for every `CHUNK_SIZE ≥ 1`, starting from the empty accumulator, invoking
the recording callback `CHUNK_SIZE` times with one-sample blocks sends exactly
one audio message and leaves the accumulator empty, while any smaller number of
such invocations (in particular `CHUNK_SIZE - 1`) sends nothing, so the message
goes out on the last invocation. -/
theorem chunk_flush (CHUNK_SIZE : Nat) (GAIN_FACTOR : Int) (samples : List Int)
    (hpos : 1 ≤ CHUNK_SIZE) :
    (samples.length = CHUNK_SIZE →
      (record CHUNK_SIZE GAIN_FACTOR (samples.map fun x => [x])
          { accumulated_audio := [], sent := [] }).sent.length = 1 ∧
        (record CHUNK_SIZE GAIN_FACTOR (samples.map fun x => [x])
          { accumulated_audio := [], sent := [] }).accumulated_audio = []) ∧
    (samples.length < CHUNK_SIZE →
      (record CHUNK_SIZE GAIN_FACTOR (samples.map fun x => [x])
          { accumulated_audio := [], sent := [] }).sent = []) := by
  constructor
  · intro hlen
    have hne : samples ≠ [] := by
      intro h; rw [h] at hlen; simp at hlen; omega
    obtain ⟨front, last, rfl⟩ : ∃ front last, samples = front ++ [last] :=
      ⟨samples.dropLast, samples.getLast hne, (List.dropLast_append_getLast hne).symm⟩
    have hfront : ([] : List Int).length + front.length < CHUNK_SIZE := by
      simp only [List.length_append, List.length_cons, List.length_nil] at hlen ⊢
      omega
    have hfull : ([] ++ front.map (amplify GAIN_FACTOR) ++ [amplify GAIN_FACTOR last]).length ≥
        CHUNK_SIZE := by
      simp only [List.length_append, List.length_cons, List.length_nil, List.length_map]
        at hlen ⊢
      omega
    rw [List.map_append, record_append,
      record_below_chunk CHUNK_SIZE GAIN_FACTOR front [] [] hfront]
    simp only [record, List.map_cons, List.map_nil, List.foldl_cons, List.foldl_nil,
      recording_callback, hfull, if_true]
    simp
  · intro hlen
    rw [record_below_chunk CHUNK_SIZE GAIN_FACTOR samples [] [] (by simpa using hlen)]

theorem chunk_flush_witness :
    ((record 3 5 ([10, 20, 30].map fun x => [x])
        { accumulated_audio := [], sent := [] }).sent.length = 1 ∧
      (record 3 5 ([10, 20, 30].map fun x => [x])
        { accumulated_audio := [], sent := [] }).accumulated_audio = []) ∧
    (record 3 5 ([10, 20].map fun x => [x]) { accumulated_audio := [], sent := [] }).sent = [] :=
  ⟨(chunk_flush 3 5 [10, 20, 30] (by decide)).1 rfl,
   (chunk_flush 3 5 [10, 20] (by decide)).2 (by decide)⟩

theorem to_int32_of_range (p : Int) (h1 : -2147483648 ≤ p) (h2 : p ≤ 2147483647) :
    to_int32 p = p := by
  unfold to_int32; omega

theorem to_int16_of_range (p : Int) (h1 : -32768 ≤ p) (h2 : p ≤ 32767) :
    to_int16 p = p := by
  unfold to_int16; omega

theorem clamp_range (a : Int) :
    -32768 ≤ (if (if a > 32767 then 32767 else a) < -32768 then -32768
        else (if a > 32767 then 32767 else a)) ∧
      (if (if a > 32767 then 32767 else a) < -32768 then -32768
        else (if a > 32767 then 32767 else a)) ≤ 32767 := by
  split <;> split <;> omega

theorem amplify_range (g x : Int) : -32768 ≤ amplify g x ∧ amplify g x ≤ 32767 := by
  have h := clamp_range (to_int32 (x * g))
  unfold amplify
  simp only []
  rw [to_int16_of_range _ h.1 h.2]
  exact h

theorem amplify_exact (g x : Int) (h1 : -32768 ≤ x * g) (h2 : x * g ≤ 32767) :
    amplify g x = x * g := by
  unfold amplify
  simp only []
  rw [to_int32_of_range (x * g) (by omega) (by omega)]
  have e1 : ¬ x * g > 32767 := by omega
  have e2 : ¬ x * g < -32768 := by omega
  simp only [e1, e2, if_false]
  exact to_int16_of_range _ h1 h2

/-- C7: for every sample `x` and gain factor `g`, the value the recording callback
appends lies in `[-32768, 32767]`, and it equals the exact product `x * g`
exactly when that product lies in `[-32768, 32767]`. -/
theorem amplify_in_range_and_exact (g x : Int) :
    (-32768 ≤ amplify g x ∧ amplify g x ≤ 32767) ∧
      (amplify g x = x * g ↔ (-32768 ≤ x * g ∧ x * g ≤ 32767)) := by
  refine ⟨amplify_range g x, ?_, fun h => amplify_exact g x h.1 h.2⟩
  intro h
  rw [← h]
  exact amplify_range g x

/-- C8 (evaluation at the failing input): for the sample 32767 and the gain
factor 65539 the exact product 2147516413 exceeds 32767, yet the `int32_t`
product wraps to a negative value and the callback appends -32768. -/
theorem amplify_wraps_for_large_gain :
    (-32768 ≤ (32767 : Int) ∧ (32767 : Int) ≤ 32767) ∧
      (-2147483648 ≤ (65539 : Int) ∧ (65539 : Int) ≤ 2147483647) ∧
      (32767 : Int) * 65539 > 32767 ∧ amplify 65539 32767 = -32768 := by
  decide

/-- Saturation holds whenever the product fits in 32 bits. -/
theorem amplify_saturates_when_product_fits (g x : Int)
    (h1 : -2147483648 ≤ x * g) (h2 : x * g ≤ 2147483647) :
    (x * g > 32767 → amplify g x = 32767) ∧ (x * g < -32768 → amplify g x = -32768) := by
  unfold amplify
  simp only []
  rw [to_int32_of_range (x * g) h1 h2]
  constructor
  · intro h
    have e1 : x * g > 32767 := h
    simp only [e1, if_true]
    decide
  · intro h
    have e1 : ¬ x * g > 32767 := by omega
    simp only [e1, if_false, h, if_true]
    decide

end Main

namespace Cxx

theorem string_find_isSome (needle : List Nat) :
    ∀ (hay : List Nat) (pos : Nat),
      (string_find needle hay pos).isSome = true ↔ needle <:+: hay := by
  intro hay
  induction hay with
  | nil =>
    intro pos
    by_cases h : needle.isPrefixOf [] = true
    · simp only [string_find, h, if_true, Option.isSome_some, true_iff]
      exact (List.isPrefixOf_iff_prefix.mp h).isInfix
    · simp only [string_find, h, if_false, Option.isSome_none, Bool.false_eq_true, false_iff]
      intro hin
      apply h
      rw [List.isPrefixOf_iff_prefix]
      rw [List.infix_nil] at hin
      rw [hin]
  | cons c rest ih =>
    intro pos
    by_cases h : needle.isPrefixOf (c :: rest) = true
    · simp only [string_find, h, if_true, Option.isSome_some, true_iff]
      exact (List.isPrefixOf_iff_prefix.mp h).isInfix
    · simp only [string_find, h, Bool.false_eq_true, if_false, ih, List.infix_cons_iff]
      have hp : ¬ needle <+: c :: rest := fun hp => h (List.isPrefixOf_iff_prefix.mpr hp)
      constructor
      · intro hin; exact Or.inr hin
      · intro hin; exact hin.resolve_left hp

theorem found_iff (hay needle : List Nat) : found hay needle = true ↔ needle <:+: hay :=
  string_find_isSome needle hay 0

end Cxx

namespace Main

open MessageHandler Cxx

/-! ## Transcript aggregation -/

theorem has_terminator_iff (buffer : List Nat) :
    has_terminator buffer = true ↔ ∃ term ∈ terminators, term <:+: buffer := by
  simp only [has_terminator, terminators, Bool.or_eq_true, found_iff, List.mem_cons,
    List.mem_singleton, exists_eq_or_imp, exists_eq_left, List.not_mem_nil, false_and,
    exists_false, or_false, or_assoc]

/-- C9: when the callback appends a fragment `t` to the buffer of the role the
message is filed under, holding `b`: if `b ++ t` contains one of the terminators
then exactly one utterance, equal to the whole of `b ++ t`, is printed for that
role and the buffer becomes empty; otherwise nothing is printed and the buffer
becomes `b ++ t`. In particular the assistant fragments "Hello" and " world."
print nothing after the first and the single utterance "Hello world." after the
second. -/
theorem transcript_append_step (message : Option Json) (t : List Nat) (s : TranscriptState)
    (h : extract_transcription_from_response message = some t) :
    ((∃ term ∈ terminators, term <:+: s.buffer (role_of message) ++ t) →
      (on_transcript message s).printed =
          s.printed ++ [(role_of message, s.buffer (role_of message) ++ t)] ∧
        (on_transcript message s).buffer (role_of message) = []) ∧
    ((¬ ∃ term ∈ terminators, term <:+: s.buffer (role_of message) ++ t) →
      (on_transcript message s).printed = s.printed ∧
        (on_transcript message s).buffer (role_of message) =
          s.buffer (role_of message) ++ t) ∧
    (on_transcript (output_transcription_message (utf8 "Hello"))
        { user_transcript_buffer := [], ai_transcript_buffer := [], printed := [] } =
      { user_transcript_buffer := [], ai_transcript_buffer := utf8 "Hello", printed := [] } ∧
     on_transcript (output_transcription_message (utf8 " world."))
        { user_transcript_buffer := [], ai_transcript_buffer := utf8 "Hello", printed := [] } =
      { user_transcript_buffer := [], ai_transcript_buffer := [],
        printed := [(Role.assistant, utf8 "Hello world.")] }) := by
  refine ⟨?_, ?_, by decide⟩
  · intro hterm
    cases hu : is_user_input_transcription message
    · have hr : role_of message = Role.assistant := by simp [role_of, hu]
      rw [hr] at hterm ⊢
      have ht : has_terminator (s.ai_transcript_buffer ++ t) = true :=
        (has_terminator_iff _).mpr hterm
      simp [on_transcript, h, hu, ht, TranscriptState.buffer]
    · have hr : role_of message = Role.user := by simp [role_of, hu]
      rw [hr] at hterm ⊢
      have ht : has_terminator (s.user_transcript_buffer ++ t) = true :=
        (has_terminator_iff _).mpr hterm
      simp [on_transcript, h, hu, ht, TranscriptState.buffer]
  · intro hterm
    cases hu : is_user_input_transcription message
    · have hr : role_of message = Role.assistant := by simp [role_of, hu]
      rw [hr] at hterm ⊢
      have ht : has_terminator (s.ai_transcript_buffer ++ t) = false := by
        rw [← Bool.not_eq_true, has_terminator_iff]; exact hterm
      simp [on_transcript, h, hu, ht, TranscriptState.buffer]
    · have hr : role_of message = Role.user := by simp [role_of, hu]
      rw [hr] at hterm ⊢
      have ht : has_terminator (s.user_transcript_buffer ++ t) = false := by
        rw [← Bool.not_eq_true, has_terminator_iff]; exact hterm
      simp [on_transcript, h, hu, ht, TranscriptState.buffer]

theorem transcript_append_step_witness :
    (on_transcript (output_transcription_message (utf8 " world."))
        { user_transcript_buffer := utf8 "Hi", ai_transcript_buffer := utf8 "Hello",
          printed := [] }).printed = [(Role.assistant, utf8 "Hello" ++ utf8 " world.")] ∧
      (on_transcript (output_transcription_message (utf8 " world."))
        { user_transcript_buffer := utf8 "Hi", ai_transcript_buffer := utf8 "Hello",
          printed := [] }).ai_transcript_buffer = [] :=
  (transcript_append_step (output_transcription_message (utf8 " world.")) (utf8 " world.")
      { user_transcript_buffer := utf8 "Hi", ai_transcript_buffer := utf8 "Hello",
        printed := [] } (by decide)).1
    ⟨utf8 ".", by decide, utf8 "Hello world", [], by decide⟩

end Main

namespace Json

theorem path_nil (j : Json) : j.path [] = some j := by
  cases j <;> rfl

theorem path_cons (j : Json) (k : String) (ks : List String) :
    j.path (k :: ks) = if j.contains k then (j.member k).path ks else none := by
  cases j with
  | object members =>
    simp only [path, contains, member]
    cases members.lookup k <;> simp
  | _ => simp [path, contains]

theorem path_one (j : Json) (a : String) :
    j.path [a] = if j.contains a then some (j.member a) else none := by
  rw [path_cons, path_nil]

theorem path_two (j : Json) (a b : String) :
    j.path [a, b] =
      if j.contains a && (j.member a).contains b then some ((j.member a).member b)
      else none := by
  rw [path_cons, path_one]
  cases j.contains a <;> simp

theorem path_three (j : Json) (a b c : String) :
    j.path [a, b, c] =
      if j.contains a then
        (if (j.member a).contains b && ((j.member a).member b).contains c then
          some (((j.member a).member b).member c)
        else none)
      else none := by
  rw [path_cons, path_two]

end Json

namespace MessageHandler

/-! ## Transcript extraction -/

theorem first_text_part_eq (parts : List Json) :
    first_text_part parts =
      ((parts.filterMap fun part => part.path ["text"]).head?).bind Json.get_string := by
  induction parts with
  | nil => rfl
  | cons part rest ih =>
    cases hc : part.contains "text"
    · simp [first_text_part, hc, ih, Json.path_one, List.filterMap_cons]
    · simp [first_text_part, hc, Json.path_one, List.filterMap_cons]

theorem extract_transcription_eq (response : Json) :
    extract_transcription_from_response (some response) =
        (first_transcript_field response).bind Json.get_string := by
  unfold extract_transcription_from_response first_transcript_field
  dsimp only
  rw [Json.path_two, Json.path_three, Json.path_three, Json.path_three, first_text_part_eq]
  cases response.contains "toolCallTranscription" &&
      (response.member "toolCallTranscription").contains "text"
  · cases response.contains "serverContent"
    · rfl
    · cases (response.member "serverContent").contains "inputTranscription" &&
        ((response.member "serverContent").member "inputTranscription").contains "text"
      · cases (response.member "serverContent").contains "outputTranscription" &&
          ((response.member "serverContent").member "outputTranscription").contains "text"
        · cases (response.member "serverContent").contains "modelTurn" &&
            ((response.member "serverContent").member "modelTurn").contains "parts"
          · rfl
          · rfl
        · rfl
      · rfl
  · rfl

/-- C10 (counterexample): in a message whose `toolCallTranscription.text` is the
number 5 and whose `serverContent.outputTranscription.text` is "B" a transcript
field is present, yet `extract_transcription_from_response` returns no match. -/
theorem extract_transcription_no_match_with_field_present :
    extract_transcription_from_response (some transcript_type_mismatch_message) = none ∧
      (first_transcript_field transcript_type_mismatch_message).isSome = true ∧
      ((transcript_type_mismatch_message.path
          ["serverContent", "outputTranscription", "text"]).bind Json.get_string) =
        some (Cxx.utf8 "B") := by
  decide

/-- C10 (amended): for every inbound message, `extract_transcription_from_response`
looks at the first field that is present, in the order `toolCallTranscription.text`,
`serverContent.inputTranscription.text`, `serverContent.outputTranscription.text`,
first text part of `serverContent.modelTurn.parts`; it returns that field's text
when the field is a string, and no match when that field is not a string, when no
field is present or when the message does not parse. In particular a message with
`toolCallTranscription.text = "A"` and `serverContent.outputTranscription.text =
"B"` yields "A". -/
theorem extract_transcription_first_present (parsed : Option Json) :
    extract_transcription_from_response parsed =
        (parsed.bind first_transcript_field).bind Json.get_string ∧
      extract_transcription_from_response (some transcript_priority_message) =
        some (Cxx.utf8 "A") := by
  refine ⟨?_, by decide⟩
  cases parsed with
  | none => rfl
  | some response => exact extract_transcription_eq response

end MessageHandler

namespace MessageHandler

/-! ## Classification of messages -/

/-- C12: `is_user_input_transcription` is true exactly for a message that parses
and whose `serverContent` object has the key `inputTranscription`, whichever
field `extract_transcription_from_response` takes its text from: a message
that also carries `toolCallTranscription.text` (from which the text "A" is
taken) is still filed under the user. -/
theorem is_user_input_transcription_iff (parsed : Option Json) :
    (is_user_input_transcription parsed = true ↔
      ∃ response, parsed = some response ∧
        (response.path ["serverContent", "inputTranscription"]).isSome = true) ∧
    (extract_transcription_from_response (some user_and_tool_message) =
        some (Cxx.utf8 "A") ∧
      is_user_input_transcription (some user_and_tool_message) = true ∧
      Main.role_of (some user_and_tool_message) = Main.Role.user) := by
  refine ⟨?_, by decide⟩
  cases parsed with
  | none => simp [is_user_input_transcription]
  | some response =>
    simp only [is_user_input_transcription, Json.path_two, Option.some.injEq,
      exists_eq_left']
    cases response.contains "serverContent" <;>
      cases (response.member "serverContent").contains "inputTranscription" <;> simp

/-- C13: `is_turn_complete` is true exactly for a message that parses and whose
`serverContent.turnComplete` is present and is the boolean true; it is false
when the field is absent, when it is false and when `serverContent` is
missing. -/
theorem is_turn_complete_iff (parsed : Option Json) :
    (is_turn_complete parsed = true ↔
      ∃ response, parsed = some response ∧
        response.path ["serverContent", "turnComplete"] = some (Json.boolean true)) ∧
    (is_turn_complete (some (turn_complete_message (Json.boolean true))) = true ∧
      is_turn_complete (some (turn_complete_message (Json.boolean false))) = false ∧
      is_turn_complete (some (Json.object [("serverContent", Json.object [])])) = false ∧
      is_turn_complete (some (Json.object [])) = false) := by
  refine ⟨?_, by decide⟩
  cases parsed with
  | none => simp [is_turn_complete]
  | some response =>
    simp only [is_turn_complete, Json.path_two, Option.some.injEq, exists_eq_left']
    cases response.contains "serverContent"
    · simp
    · cases (response.member "serverContent").contains "turnComplete"
      · simp
      · cases hv : (response.member "serverContent").member "turnComplete" with
        | boolean b => cases b <;> simp [Json.get_bool]
        | _ => simp [Json.get_bool]

end MessageHandler

namespace AudioHandler

/-! ## Device pull -/

/-- C15: for every playback buffer `B` and every request of `N` samples,
`playback_callback` leaves exactly `N` samples in the device buffer, the first
`min N |B|` being the first samples of `B` in order and all remaining ones
zero, and afterwards the playback buffer is `B` without its first `min N |B|`
samples. -/
theorem playback_callback_pull (handler : AudioHandler) (output : List Int) (N : Nat)
    (hout : output.length = N) :
    (playback_callback handler output N).2 =
        handler.playback_buffer_.take (min N handler.playback_buffer_.length) ++
          List.replicate (N - min N handler.playback_buffer_.length) 0 ∧
      (playback_callback handler output N).2.length = N ∧
      (playback_callback handler output N).1.playback_buffer_ =
        handler.playback_buffer_.drop (min N handler.playback_buffer_.length) := by
  have hval : (playback_callback handler output N).2 =
      handler.playback_buffer_.take (min N handler.playback_buffer_.length) ++
        List.replicate (N - min N handler.playback_buffer_.length) 0 := by
    unfold playback_callback
    dsimp only
    by_cases h0 : min N handler.playback_buffer_.length > 0
    · by_cases h1 : min N handler.playback_buffer_.length < N
      · have hlen : (List.take (min N handler.playback_buffer_.length)
            handler.playback_buffer_).length = min N handler.playback_buffer_.length := by
          rw [List.length_take]; omega
        have hdrop : List.drop (min N handler.playback_buffer_.length +
            (N - min N handler.playback_buffer_.length))
            (List.take (min N handler.playback_buffer_.length) handler.playback_buffer_ ++
              List.drop (min N handler.playback_buffer_.length) output) = [] := by
          apply List.drop_eq_nil_of_le
          simp only [List.length_append, List.length_take, List.length_drop]
          omega
        simp only [h0, h1, if_true, memcpy, memset_zero, hdrop, List.append_nil]
        rw [List.take_append_of_le_length (by omega), List.take_of_length_le (by omega)]
      · have hN : min N handler.playback_buffer_.length = N := by omega
        rw [hN] at h0
        have hd : List.drop N output = [] := List.drop_eq_nil_of_le (by omega)
        simp only [hN, h0, Nat.lt_irrefl, if_true, if_false, memcpy, Nat.sub_self,
          List.replicate_zero, List.append_nil, hd]
    · have hz : min N handler.playback_buffer_.length = 0 := by omega
      by_cases h1 : 0 < N
      · simp only [hz, gt_iff_lt, Nat.lt_irrefl, if_false, h1, if_true, memset_zero,
          List.take_zero, List.nil_append, Nat.zero_add, Nat.sub_zero]
        rw [List.drop_eq_nil_of_le (by omega), List.append_nil]
      · have hN : N = 0 := by omega
        subst hN
        have : output = [] := List.length_eq_zero.mp hout
        simp [this]
  refine ⟨hval, ?_, ?_⟩
  · rw [hval, List.length_append, List.length_take, List.length_replicate]
    omega
  · unfold playback_callback
    dsimp only
    by_cases h0 : min N handler.playback_buffer_.length > 0
    · simp only [h0, if_true]
    · have hz : min N handler.playback_buffer_.length = 0 := by omega
      simp [hz]

theorem playback_callback_pull_witness :
    ([9, 9, 9, 9, 9] : List Int).length = 5 ∧
      (playback_callback { playback_initialized_ := true, playback_buffer_ := [1, 2, 3] }
        [9, 9, 9, 9, 9] 5).2 = [1, 2, 3, 0, 0] ∧
      (playback_callback { playback_initialized_ := true, playback_buffer_ := [1, 2, 3] }
        [9, 9, 9, 9, 9] 5).1.playback_buffer_ = [] :=
  ⟨rfl,
   (playback_callback_pull { playback_initialized_ := true, playback_buffer_ := [1, 2, 3] }
      [9, 9, 9, 9, 9] 5 rfl).1,
   (playback_callback_pull { playback_initialized_ := true, playback_buffer_ := [1, 2, 3] }
      [9, 9, 9, 9, 9] 5 rfl).2.2⟩

end AudioHandler

namespace MessageHandler

/-! ## Byte-to-sample conversion -/

theorem to_int16_pair (lo hi : Nat) (hlo : lo < 256) (hhi : hi < 256) :
    to_int16 (Int.ofNat (lo ||| (hi <<< 8))) = le_int16 lo hi := by
  rw [lor_shift lo hi hlo]
  unfold to_int16 le_int16
  simp only [Int.ofNat_eq_coe]
  split <;> omega

theorem uint8_to_int16_length : ∀ bytes : List Nat,
    (uint8_to_int16 bytes).length = bytes.length / 2
  | [] => rfl
  | [_] => by simp [uint8_to_int16]
  | lo :: hi :: rest => by
    rw [uint8_to_int16_cons, List.length_cons, uint8_to_int16_length rest]
    simp only [List.length_cons]
    omega

theorem uint8_to_int16_getD : ∀ (bytes : List Nat), (∀ x ∈ bytes, x < 256) →
    ∀ i, i < bytes.length / 2 →
      (uint8_to_int16 bytes).getD i 0 =
        le_int16 (bytes.getD (2 * i) 0) (bytes.getD (2 * i + 1) 0)
  | [], _, i, hi => by simp at hi
  | [_], _, i, hi => by
    simp only [List.length_cons, List.length_nil] at hi
    omega
  | lo :: hi :: rest, hb, i, hlt => by
    rw [uint8_to_int16_cons, to_int16_pair lo hi (hb lo (by simp)) (hb hi (by simp))]
    cases i with
    | zero => rfl
    | succ j =>
      have hj : j < rest.length / 2 := by
        simp only [List.length_cons] at hlt
        omega
      have e1 : 2 * (j + 1) = (2 * j + 1) + 1 := by omega
      have e2 : 2 * (j + 1) + 1 = ((2 * j + 1) + 1) + 1 := by omega
      rw [e2, e1]
      simp only [List.getD_cons_succ]
      exact uint8_to_int16_getD rest (fun x hx => hb x (by simp [hx])) j hj

theorem uint8_to_int16_drop_odd : ∀ (bytes : List Nat) (x : Nat), bytes.length % 2 = 0 →
    uint8_to_int16 (bytes ++ [x]) = uint8_to_int16 bytes
  | [], _, _ => rfl
  | [_], _, h => by simp at h
  | lo :: hi :: rest, x, h => by
    have hr : rest.length % 2 = 0 := by
      simp only [List.length_cons] at h
      omega
    rw [List.cons_append, List.cons_append, uint8_to_int16_cons, uint8_to_int16_cons,
      uint8_to_int16_drop_odd rest x hr]

/-- C18: for every decoded byte sequence of length `n` the conversion loop of
`extract_audio_from_response` yields exactly `n / 2` samples, sample `i` being
the little-endian signed 16-bit value of bytes `2i` (low) and `2i + 1` (high) in
two's complement, and a trailing odd byte is dropped: appending one byte to a
sequence of even length does not change the result. -/
theorem uint8_to_int16_policy (bytes : List Nat) (hb : ∀ x ∈ bytes, x < 256) :
    (uint8_to_int16 bytes).length = bytes.length / 2 ∧
      (∀ i, i < bytes.length / 2 →
        (uint8_to_int16 bytes).getD i 0 =
          le_int16 (bytes.getD (2 * i) 0) (bytes.getD (2 * i + 1) 0)) ∧
      (∀ x, bytes.length % 2 = 0 → uint8_to_int16 (bytes ++ [x]) = uint8_to_int16 bytes) :=
  ⟨uint8_to_int16_length bytes, uint8_to_int16_getD bytes hb,
    fun x h => uint8_to_int16_drop_odd bytes x h⟩

theorem uint8_to_int16_policy_witness :
    (∀ x ∈ [1, 2, 255, 255], x < 256) ∧
      (uint8_to_int16 [1, 2, 255, 255]).length = 2 ∧
      (uint8_to_int16 [1, 2, 255, 255]).getD 1 0 = le_int16 255 255 ∧
      uint8_to_int16 ([1, 2, 255, 255] ++ [7]) = uint8_to_int16 [1, 2, 255, 255] :=
  ⟨by decide, (uint8_to_int16_policy [1, 2, 255, 255] (by decide)).1,
    (uint8_to_int16_policy [1, 2, 255, 255] (by decide)).2.1 1 (by decide),
    (uint8_to_int16_policy [1, 2, 255, 255] (by decide)).2.2 7 rfl⟩

/-! ## Lenient decoding -/

set_option maxRecDepth 100000 in
theorem decode_guard_small : ∀ c < 256, (decode_guard c = true ↔ c ∈ base64_chars) := by
  decide

theorem base64_chars_small : ∀ x ∈ base64_chars, x < 256 := by decide

theorem decode_guard_iff_mem (c : Nat) : decode_guard c = true ↔ c ∈ base64_chars := by
  by_cases h : c < 256
  · exact decode_guard_small c h
  · constructor
    · intro hg
      exfalso
      simp only [decode_guard, isalnum, Bool.and_eq_true, Bool.or_eq_true, decide_eq_true_eq,
        beq_iff_eq, bne_iff_ne] at hg
      omega
    · intro hm
      exact absurd (base64_chars_small c hm) h

theorem base64_decode_loop_stop (c : Nat) (rest : List Nat) (hc : decode_guard c = false) :
    ∀ (p : List Nat) (s : CodecState), (∀ x ∈ p, decode_guard x = true) →
      base64_decode_loop (p ++ c :: rest) s = base64_decode_loop p s := by
  intro p
  induction p with
  | nil =>
    intro s _
    simp [base64_decode_loop, hc]
  | cons x p ih =>
    intro s hp
    have hx : decode_guard x = true := hp x (by simp)
    have hp' : ∀ y ∈ p, decode_guard y = true := fun y hy => hp y (by simp [hy])
    simp only [List.cons_append, base64_decode_loop, hx, if_true]
    split
    · exact ih _ hp'
    · exact ih _ hp'

/-- C19: `base64_decode` is a total function, and for every string `p` made only
of characters of the base64 alphabet, every character `c` outside the alphabet
(`=` included) and every string `rest`, decoding `p ++ c ++ rest` gives the same
bytes as decoding `p`: decoding stops at the first character outside the
alphabet and ignores what follows. -/
theorem base64_decode_lenient (u3 : CharArray3) (u4 : CharArray4) (p rest : List Nat)
    (c : Nat) (hp : ∀ x ∈ p, x ∈ base64_chars) (hc : c ∉ base64_chars) :
    base64_decode_with u3 u4 (p ++ c :: rest) = base64_decode_with u3 u4 p ∧
      (61 ∉ base64_chars ∧ base64_decode_with u3 u4 (p ++ 61 :: rest) =
        base64_decode_with u3 u4 p) := by
  have hstop : ∀ d, d ∉ base64_chars →
      base64_decode_with u3 u4 (p ++ d :: rest) = base64_decode_with u3 u4 p := by
    intro d hd
    have hg : decode_guard d = false := by
      rw [← Bool.not_eq_true, decode_guard_iff_mem]; exact hd
    unfold base64_decode_with
    rw [base64_decode_loop_stop d rest hg p _ (fun x hx => (decode_guard_iff_mem x).mpr (hp x hx))]
  have h61 : 61 ∉ base64_chars := by decide
  exact ⟨hstop c hc, h61, hstop 61 h61⟩

theorem base64_decode_lenient_witness :
    (∀ x ∈ [84, 87, 70, 117], x ∈ base64_chars) ∧ 10 ∉ base64_chars ∧
      base64_decode ([84, 87, 70, 117] ++ 10 :: [84, 87, 70, 117]) =
        base64_decode [84, 87, 70, 117] :=
  ⟨by decide, by decide,
    (base64_decode_lenient ⟨0, 0, 0⟩ ⟨0, 0, 0, 0⟩ [84, 87, 70, 117] [84, 87, 70, 117] 10
      (by decide) (by decide)).1⟩

end MessageHandler

namespace MessageHandler

/-! ## The encoder against standard base64 -/

set_option maxRecDepth 100000 in
theorem standard_char_eq_table : ∀ k < 64, standard_char k = base64_char_at k := by
  decide

theorem char_at_congr (x y : Nat) (hy : y < 64) (h : x = y) :
    standard_char x = base64_char_at y := by
  rw [h]
  exact standard_char_eq_table y hy

theorem standard_group_three (a b c : Nat) (ha : a < 256) (hb : b < 256) (hc : c < 256) :
    standard_group [a, b, c] = quad a b c := by
  simp only [standard_group, group_value, sextets, quad, List.length_cons, List.length_nil,
    List.foldl_cons, List.foldl_nil, List.range, List.range.loop, List.map_cons, List.map_nil,
    List.replicate, List.append_nil]
  norm_num
  refine ⟨char_at_congr _ _ ?_ ?_, char_at_congr _ _ ?_ ?_, char_at_congr _ _ ?_ ?_,
    char_at_congr _ _ ?_ ?_⟩ <;> omega

theorem standard_group_two (a b : Nat) (ha : a < 256) (hb : b < 256) :
    standard_group [a, b] =
      [base64_char_at (a / 4), base64_char_at (a % 4 * 16 + b / 16),
       base64_char_at (b % 16 * 4), 61] := by
  simp only [standard_group, group_value, sextets, List.length_cons, List.length_nil,
    List.foldl_cons, List.foldl_nil, List.range, List.range.loop, List.map_cons, List.map_nil,
    List.replicate]
  norm_num
  refine ⟨char_at_congr _ _ ?_ ?_, char_at_congr _ _ ?_ ?_, char_at_congr _ _ ?_ ?_⟩ <;>
    omega

theorem standard_group_one (a : Nat) (ha : a < 256) :
    standard_group [a] = [base64_char_at (a / 4), base64_char_at (a % 4 * 16), 61, 61] := by
  simp only [standard_group, group_value, sextets, List.length_cons, List.length_nil,
    List.foldl_cons, List.foldl_nil, List.range, List.range.loop, List.map_cons, List.map_nil,
    List.replicate]
  norm_num
  refine ⟨char_at_congr _ _ ?_ ?_, char_at_congr _ _ ?_ ?_⟩ <;> omega

theorem standard_base64_eq_encoded : ∀ data : List Nat, (∀ x ∈ data, x < 256) →
    standard_base64 data = encoded data
  | [], _ => rfl
  | [a], h => by
    rw [standard_base64, standard_group_one a (h a (by simp)), encoded]
  | [a, b], h => by
    rw [standard_base64, standard_group_two a b (h a (by simp)) (h b (by simp)), encoded]
  | a :: b :: c :: rest, h => by
    rw [standard_base64, standard_group_three a b c (h a (by simp)) (h b (by simp))
      (h c (by simp)), encoded,
      standard_base64_eq_encoded rest (fun x hx => h x (by simp [hx]))]

theorem encoded_length : ∀ data : List Nat,
    (encoded data).length = 4 * ((data.length + 2) / 3)
  | [] => rfl
  | [_] => by simp [encoded]
  | [_, _] => by simp [encoded]
  | a :: b :: c :: rest => by
    rw [encoded, List.length_append, encoded_length rest]
    simp only [quad, List.length_cons, List.length_nil]
    omega

set_option maxRecDepth 100000 in
theorem char_at_mem : ∀ k < 64, base64_char_at k ∈ base64_chars ∧ base64_char_at k ≠ 61 := by
  decide

theorem encoded_padding : ∀ data : List Nat, (∀ x ∈ data, x < 256) →
    ∃ body : List Nat,
      encoded data = body ++ List.replicate ((3 - data.length % 3) % 3) 61 ∧
        ∀ x ∈ body, x ∈ base64_chars ∧ x ≠ 61
  | [], _ => ⟨[], rfl, by simp⟩
  | [a], h => by
    have ha : a < 256 := h a (by simp)
    refine ⟨[base64_char_at (a / 4), base64_char_at (a % 4 * 16)], rfl, ?_⟩
    intro x hx
    simp only [List.mem_cons, List.mem_singleton, List.not_mem_nil, or_false] at hx
    rcases hx with rfl | rfl
    · exact char_at_mem _ (by omega)
    · exact char_at_mem _ (by omega)
  | [a, b], h => by
    have ha : a < 256 := h a (by simp)
    have hb : b < 256 := h b (by simp)
    refine ⟨[base64_char_at (a / 4), base64_char_at (a % 4 * 16 + b / 16),
      base64_char_at (b % 16 * 4)], rfl, ?_⟩
    intro x hx
    simp only [List.mem_cons, List.mem_singleton, List.not_mem_nil, or_false] at hx
    rcases hx with rfl | rfl | rfl
    · exact char_at_mem _ (by omega)
    · exact char_at_mem _ (by omega)
    · exact char_at_mem _ (by omega)
  | a :: b :: c :: rest, h => by
    have ha : a < 256 := h a (by simp)
    have hb : b < 256 := h b (by simp)
    have hc : c < 256 := h c (by simp)
    obtain ⟨body, hbody, hmem⟩ := encoded_padding rest (fun x hx => h x (by simp [hx]))
    refine ⟨quad a b c ++ body, ?_, ?_⟩
    · have hl : (a :: b :: c :: rest).length % 3 = rest.length % 3 := by
        simp only [List.length_cons]
        omega
      rw [encoded, hbody, hl, List.append_assoc]
    · intro x hx
      rw [List.mem_append] at hx
      rcases hx with hq | hx
      · simp only [quad, List.mem_cons, List.mem_singleton, List.not_mem_nil, or_false] at hq
        rcases hq with rfl | rfl | rfl | rfl
        · exact char_at_mem _ (by omega)
        · exact char_at_mem _ (by omega)
        · exact char_at_mem _ (by omega)
        · exact char_at_mem _ (by omega)
      · exact hmem x hx

theorem base64_encode_with_eq_encoded (u3 : CharArray3) (u4 : CharArray4) (b : List Nat)
    (hb : ∀ x ∈ b, x < 256) : base64_encode_with u3 u4 b = encoded b := by
  unfold base64_encode_with
  rw [encode_closed_form b _ rfl hb]
  rfl

theorem table_in_standard_alphabet : ∀ x ∈ base64_chars, is_standard_alphabet x = true := by
  decide

/-- C17: for every byte sequence `b`, `base64_encode b` is the standard base64
encoding of `b`: each group of three bytes gives four characters of the alphabet
`A-Z a-z 0-9 + /` (six-bit value 0 is `A`, 26 is `a`, 52 is `0`, 62 is `+`, 63 is
`/`), six bits at a time, most significant first; the output has length
`4 * ceil(|b| / 3)`; and `=` occurs only as the final `(3 - |b| mod 3) mod 3`
characters, everything before them being characters of that alphabet, to which
`=` does not belong. -/
theorem base64_encode_standard (u3 : CharArray3) (u4 : CharArray4) (b : List Nat)
    (hb : ∀ x ∈ b, x < 256) :
    base64_encode_with u3 u4 b = standard_base64 b ∧
      (base64_encode_with u3 u4 b).length = 4 * ((b.length + 2) / 3) ∧
      (∃ body : List Nat,
        base64_encode_with u3 u4 b =
          body ++ List.replicate ((3 - b.length % 3) % 3) 61 ∧
        ∀ x ∈ body, is_standard_alphabet x = true) ∧
      is_standard_alphabet 61 = false := by
  rw [base64_encode_with_eq_encoded u3 u4 b hb]
  refine ⟨(standard_base64_eq_encoded b hb).symm, encoded_length b, ?_, by decide⟩
  obtain ⟨body, hbody, hmem⟩ := encoded_padding b hb
  exact ⟨body, hbody, fun x hx => table_in_standard_alphabet x (hmem x hx).1⟩

theorem base64_encode_standard_witness :
    (∀ x ∈ [77, 97, 110, 255], x < 256) ∧
      base64_encode [77, 97, 110, 255] = standard_base64 [77, 97, 110, 255] ∧
      standard_base64 [77, 97, 110, 255] = [84, 87, 70, 117, 47, 119, 61, 61] ∧
      (base64_encode [77, 97, 110, 255]).length = 8 :=
  ⟨by decide,
    (base64_encode_standard ⟨0, 0, 0⟩ ⟨0, 0, 0, 0⟩ [77, 97, 110, 255] (by decide)).1,
    by decide,
    (base64_encode_standard ⟨0, 0, 0⟩ ⟨0, 0, 0, 0⟩ [77, 97, 110, 255] (by decide)).2.1⟩

end MessageHandler

namespace MessageHandler

/-! ## The payload of an audio input message -/

theorem base64_decode_encoded (b : List Nat) (hb : ∀ x ∈ b, x < 256) :
    base64_decode (base64_encode b) = b := by
  unfold base64_decode base64_encode
  rw [base64_encode_with_eq_encoded _ _ b hb]
  unfold base64_decode_with
  simpa using decode_closed_form b
    { i := 0, char_array_3 := ⟨0, 0, 0⟩, char_array_4 := ⟨0, 0, 0, 0⟩, ret := [] } rfl hb

theorem int16_to_uint8_bytes (s : List Int) : ∀ x ∈ int16_to_uint8 s, x < 256 := by
  induction s with
  | nil => intro x hx; simp [int16_to_uint8] at hx
  | cons v rest ih =>
    intro x hx
    rw [int16_to_uint8_cons] at hx
    simp only [List.mem_cons] at hx
    rcases hx with rfl | rfl | hx
    · omega
    · omega
    · exact ih x hx

theorem unpack_pack (s : List Int) (hs : ∀ x ∈ s, -32768 ≤ x ∧ x ≤ 32767) :
    uint8_to_int16 (int16_to_uint8 s) = s := by
  induction s with
  | nil => rfl
  | cons x rest ih =>
    have hx := hs x (List.mem_cons_self _ _)
    rw [int16_to_uint8_cons, uint8_to_int16_cons, sample_pair x hx.1 hx.2,
      ih (fun y hy => hs y (List.mem_cons_of_mem _ hy))]

end MessageHandler

namespace Main

open MessageHandler Cxx

theorem audio_message_samples_create (samples : List Int) (mime : List Nat)
    (hs : ∀ x ∈ samples, -32768 ≤ x ∧ x ≤ 32767) :
    audio_message_samples (create_audio_input_message samples mime) = samples := by
  have h : audio_message_samples (create_audio_input_message samples mime) =
      uint8_to_int16 (base64_decode (base64_encode (int16_to_uint8 samples))) ++ [] := rfl
  rw [h, base64_decode_encoded _ (int16_to_uint8_bytes samples), unpack_pack samples hs,
    List.append_nil]

theorem amplified_in_range (GAIN_FACTOR : Int) (chunk : List Int) :
    ∀ x ∈ chunk.map (amplify GAIN_FACTOR), -32768 ≤ x ∧ x ≤ 32767 := by
  intro x hx
  obtain ⟨y, _, rfl⟩ := List.mem_map.mp hx
  exact amplify_range GAIN_FACTOR y

theorem record_conserves (CHUNK_SIZE : Nat) (GAIN_FACTOR : Int) (blocks : List (List Int)) :
    ∀ s : CaptureState, (∀ x ∈ s.accumulated_audio, -32768 ≤ x ∧ x ≤ 32767) →
      (record CHUNK_SIZE GAIN_FACTOR blocks s).sent.flatMap audio_message_samples ++
          (record CHUNK_SIZE GAIN_FACTOR blocks s).accumulated_audio =
        s.sent.flatMap audio_message_samples ++
          (s.accumulated_audio ++ blocks.flatten.map (amplify GAIN_FACTOR)) := by
  induction blocks with
  | nil => intro s _; simp [record]
  | cons block rest ih =>
    intro s hs
    have hall : ∀ x ∈ s.accumulated_audio ++ block.map (amplify GAIN_FACTOR),
        -32768 ≤ x ∧ x ≤ 32767 := by
      intro x hx
      rcases List.mem_append.mp hx with h | h
      · exact hs x h
      · exact amplified_in_range GAIN_FACTOR block x h
    have hstep : record CHUNK_SIZE GAIN_FACTOR (block :: rest) s =
        record CHUNK_SIZE GAIN_FACTOR rest
          (recording_callback CHUNK_SIZE GAIN_FACTOR block s) := rfl
    rw [hstep]
    by_cases hfull : (s.accumulated_audio ++ block.map (amplify GAIN_FACTOR)).length ≥
        CHUNK_SIZE
    · have hcb : recording_callback CHUNK_SIZE GAIN_FACTOR block s =
          { accumulated_audio := [],
            sent := s.sent ++ [create_audio_input_message
              (s.accumulated_audio ++ block.map (amplify GAIN_FACTOR)) default_mime_type] } := by
        simp only [recording_callback, hfull, if_true]
      rw [hcb, ih _ (by simp)]
      simp only [List.flatMap_append, List.flatMap_cons, List.flatMap_nil, List.append_nil,
        audio_message_samples_create _ _ hall, List.nil_append, List.flatten_cons,
        List.map_append, List.append_assoc]
    · have hcb : recording_callback CHUNK_SIZE GAIN_FACTOR block s =
          { s with accumulated_audio :=
              s.accumulated_audio ++ block.map (amplify GAIN_FACTOR) } := by
        simp only [recording_callback, hfull, if_false]
      rw [hcb, ih _ hall]
      simp only [List.flatten_cons, List.map_append, List.append_assoc]

/-- The samples carried by all audio messages sent, followed by the samples
left in the accumulator, are the image under `amplify` of all input samples in
order; and an invocation that sends a message sends the whole accumulator
(however far beyond `CHUNK_SIZE` it reaches) and leaves it empty. -/
theorem capture_conserves (CHUNK_SIZE : Nat) (GAIN_FACTOR : Int) (blocks : List (List Int)) :
    (record CHUNK_SIZE GAIN_FACTOR blocks
          { accumulated_audio := [], sent := [] }).sent.flatMap audio_message_samples ++
        (record CHUNK_SIZE GAIN_FACTOR blocks
          { accumulated_audio := [], sent := [] }).accumulated_audio =
      blocks.flatten.map (amplify GAIN_FACTOR) ∧
    ∀ (s : CaptureState) (block : List Int),
      (recording_callback CHUNK_SIZE GAIN_FACTOR block s).sent ≠ s.sent →
        (recording_callback CHUNK_SIZE GAIN_FACTOR block s).sent =
            s.sent ++ [create_audio_input_message
              (s.accumulated_audio ++ block.map (amplify GAIN_FACTOR)) default_mime_type] ∧
          (recording_callback CHUNK_SIZE GAIN_FACTOR block s).accumulated_audio = [] := by
  constructor
  · rw [record_conserves CHUNK_SIZE GAIN_FACTOR blocks _ (by simp)]
    simp
  · intro s block hsent
    by_cases hfull : (s.accumulated_audio ++ block.map (amplify GAIN_FACTOR)).length ≥
        CHUNK_SIZE
    · simp only [recording_callback, hfull, if_true, and_self]
    · exfalso
      apply hsent
      simp only [recording_callback, hfull, if_false]

theorem clamp_eq_max_min (p : Int) :
    (if (if p > 32767 then 32767 else p) < -32768 then -32768
      else (if p > 32767 then 32767 else p)) = max (-32768) (min 32767 p) := by
  split <;> split <;> omega

theorem amplify_eq_gain_and_clamp (g x : Int) (h1 : -2147483648 ≤ x * g)
    (h2 : x * g ≤ 2147483647) : amplify g x = gain_and_clamp g x := by
  have hr := clamp_range (x * g)
  unfold amplify gain_and_clamp
  simp only []
  rw [to_int32_of_range (x * g) h1 h2, to_int16_of_range _ hr.1 hr.2]
  exact clamp_eq_max_min (x * g)

/-- While every product `sample * GAIN_FACTOR` fits in 32 bits, the samples
carried by the messages sent, followed by the accumulator, are the saturated
products of all input samples in order. -/
theorem capture_lossless_when_product_fits (CHUNK_SIZE : Nat) (GAIN_FACTOR : Int)
    (blocks : List (List Int))
    (hfit : ∀ x ∈ blocks.flatten,
      -2147483648 ≤ x * GAIN_FACTOR ∧ x * GAIN_FACTOR ≤ 2147483647) :
    (record CHUNK_SIZE GAIN_FACTOR blocks
          { accumulated_audio := [], sent := [] }).sent.flatMap audio_message_samples ++
        (record CHUNK_SIZE GAIN_FACTOR blocks
          { accumulated_audio := [], sent := [] }).accumulated_audio =
      blocks.flatten.map (gain_and_clamp GAIN_FACTOR) := by
  rw [(capture_conserves CHUNK_SIZE GAIN_FACTOR blocks).1]
  exact List.map_congr_left fun x hx =>
    amplify_eq_gain_and_clamp GAIN_FACTOR x (hfit x hx).1 (hfit x hx).2

set_option maxRecDepth 100000 in
/-- C16 (evaluation at the failing input): with `CHUNK_SIZE = 1`, the gain factor
65539 and the single captured block `[32767, 1]`, the message sent carries
`[-32768, 32767]`, while the gain-and-clamp image of the input is
`[32767, 32767]`: the first sample is not the saturated product. -/
theorem capture_wraps_for_large_gain :
    (record 1 65539 [[32767, 1]]
          { accumulated_audio := [], sent := [] }).sent.flatMap audio_message_samples ++
        (record 1 65539 [[32767, 1]]
          { accumulated_audio := [], sent := [] }).accumulated_audio = [-32768, 32767] ∧
      [[32767, 1]].flatten.map (gain_and_clamp 65539) = [32767, 32767] := by
  decide

end Main

namespace Json

theorem lookup_insert_member (k key : String) (v : Json) (members : List (String × Json)) :
    (insert_member key v members).lookup k =
      if k = key then some v else members.lookup k := by
  induction members with
  | nil =>
    by_cases h : k = key
    · simp [insert_member, List.lookup, h]
    · have hb : (k == key) = false := beq_eq_false_iff_ne.mpr h
      simp [insert_member, List.lookup, h, hb]
  | cons m rest ih =>
    obtain ⟨k1, w⟩ := m
    by_cases h1 : key = k1
    · subst h1
      by_cases h : k = key
      · simp [insert_member, List.lookup, h]
      · have hb : (k == key) = false := beq_eq_false_iff_ne.mpr h
        simp [insert_member, List.lookup, h, hb]
    · by_cases h2 : key < k1
      · by_cases h : k = key
        · simp [insert_member, List.lookup, h, h1, h2]
        · have hb : (k == key) = false := beq_eq_false_iff_ne.mpr h
          simp [insert_member, List.lookup, h, hb, h1, h2]
      · by_cases h : k = key
        · subst h
          have hb : (k == k1) = false := beq_eq_false_iff_ne.mpr h1
          simp [insert_member, List.lookup, h1, h2, ih, hb]
        · by_cases h3 : k = k1
          · subst h3
            simp [insert_member, List.lookup, h1, h2, h]
          · have hb : (k == k1) = false := beq_eq_false_iff_ne.mpr h3
            simp [insert_member, List.lookup, h, h1, h2, hb, ih]

end Json

namespace MessageHandler

/-! ## The setup message -/

/-- C20: the message built by `create_setup_message` is a JSON object whose
`setup` member has `model = "models/" + model_name`, a `generationConfig` with
`responseModalities = ["AUDIO"]` and the given `temperature`, `topP` and `topK`,
and always both `inputAudioTranscription` and `outputAudioTranscription` as
empty objects; `setup.systemInstruction` is present exactly when the
system-instruction text is not empty (and then holds that text as its single
part), and `setup.tools` is present exactly when search is enabled (and then
declares `googleSearch`). -/
theorem create_setup_message_shape (model_name : List Nat) (enable_search : Bool)
    (temperature top_p : Nat) (top_k : Int) (system_instruction_text : List Nat) :
    (∃ setup, create_setup_message model_name enable_search temperature top_p top_k
        system_instruction_text = Json.object [("setup", setup)]) ∧
    (create_setup_message model_name enable_search temperature top_p top_k
        system_instruction_text).path ["setup", "model"] =
      some (Json.string (Cxx.utf8 "models/" ++ model_name)) ∧
    (create_setup_message model_name enable_search temperature top_p top_k
        system_instruction_text).path ["setup", "generationConfig", "responseModalities"] =
      some (Json.array [Json.string (Cxx.utf8 "AUDIO")]) ∧
    (create_setup_message model_name enable_search temperature top_p top_k
        system_instruction_text).path ["setup", "generationConfig", "temperature"] =
      some (Json.number_float temperature) ∧
    (create_setup_message model_name enable_search temperature top_p top_k
        system_instruction_text).path ["setup", "generationConfig", "topP"] =
      some (Json.number_float top_p) ∧
    (create_setup_message model_name enable_search temperature top_p top_k
        system_instruction_text).path ["setup", "generationConfig", "topK"] =
      some (Json.number_integer top_k) ∧
    (create_setup_message model_name enable_search temperature top_p top_k
        system_instruction_text).path ["setup", "inputAudioTranscription"] =
      some (Json.object []) ∧
    (create_setup_message model_name enable_search temperature top_p top_k
        system_instruction_text).path ["setup", "outputAudioTranscription"] =
      some (Json.object []) ∧
    (create_setup_message model_name enable_search temperature top_p top_k
        system_instruction_text).path ["setup", "systemInstruction"] =
      (if system_instruction_text = [] then none
       else some (Json.object [("parts", Json.array
          [Json.object [("text", Json.string system_instruction_text)]])])) ∧
    (create_setup_message model_name enable_search temperature top_p top_k
        system_instruction_text).path ["setup", "tools"] =
      (if enable_search then
        some (Json.array [Json.object [("googleSearch", Json.object [])]])
       else none) := by
  cases system_instruction_text with
  | nil =>
    cases enable_search
    · exact ⟨⟨_, rfl⟩, rfl, rfl, rfl, rfl, rfl, rfl, rfl, rfl, rfl⟩
    · refine ⟨⟨_, rfl⟩, ?_, ?_, ?_, ?_, ?_, ?_, ?_, ?_, ?_⟩ <;>
        simp [create_setup_message, Json.assign, Json.path, Json.lookup_insert_member,
          List.lookup]
  | cons c text =>
    cases enable_search
    · refine ⟨⟨_, rfl⟩, ?_, ?_, ?_, ?_, ?_, ?_, ?_, ?_, ?_⟩ <;>
        simp [create_setup_message, Json.assign, Json.path, Json.lookup_insert_member,
          List.lookup]
    · refine ⟨⟨_, rfl⟩, ?_, ?_, ?_, ?_, ?_, ?_, ?_, ?_, ?_⟩ <;>
        simp [create_setup_message, Json.assign, Json.path, Json.lookup_insert_member,
          List.lookup]

end MessageHandler

namespace MessageHandler

/-! ## Audio extraction -/

theorem audio_step_skip (part : Json) (rest : List Json) (h : is_passed_over part) :
    audio_from_parts (part :: rest) = audio_from_parts rest := by
  unfold is_passed_over at h
  rw [Json.path_two, Json.path_two] at h
  rw [audio_from_parts]
  dsimp only
  cases h1 : part.contains "inlineData"
  · simp
  · cases h2 : (part.member "inlineData").contains "mimeType"
    · simp
    · cases h3 : (part.member "inlineData").contains "data"
      · simp
      · simp [h1, h2, h3] at h
        obtain ⟨mime_type, hm, hno⟩ := h
        have hf : Cxx.found mime_type (Cxx.utf8 "audio") = false := by
          rw [← Bool.not_eq_true, Cxx.found_iff]; exact hno
        simp [hm, Json.get_string, hf]

theorem audio_step_hit (part : Json) (rest : List Json) (mime_type encoded_data : List Nat)
    (hm : part.path ["inlineData", "mimeType"] = some (Json.string mime_type))
    (hd : part.path ["inlineData", "data"] = some (Json.string encoded_data))
    (ha : Cxx.utf8 "audio" <:+: mime_type) :
    audio_from_parts (part :: rest) = some (uint8_to_int16 (base64_decode encoded_data)) := by
  rw [Json.path_two] at hm hd
  have hf : Cxx.found mime_type (Cxx.utf8 "audio") = true := (Cxx.found_iff _ _).mpr ha
  rw [audio_from_parts]
  dsimp only
  cases h1 : part.contains "inlineData"
  · simp [h1] at hm
  · cases h2 : (part.member "inlineData").contains "mimeType"
    · simp [h1, h2] at hm
    · cases h3 : (part.member "inlineData").contains "data"
      · simp [h1, h3] at hd
      · simp only [h1, h2, h3, Bool.and_self, if_true, Option.some.injEq] at hm hd
        simp [hm, hd, Json.get_string, hf]

theorem audio_step_cases (part : Json) (rest : List Json) :
    is_passed_over part ∨ is_audio_part part ∨ audio_from_parts (part :: rest) = none := by
  unfold is_passed_over is_audio_part
  rw [Json.path_two, Json.path_two]
  cases h1 : part.contains "inlineData"
  · left; left; simp
  · cases h2 : (part.member "inlineData").contains "mimeType"
    · left; left; simp
    · cases h3 : (part.member "inlineData").contains "data"
      · left; right; left; simp
      · cases hm : (part.member "inlineData").member "mimeType" with
        | string mime_type =>
          by_cases ha : Cxx.utf8 "audio" <:+: mime_type
          · cases hd : (part.member "inlineData").member "data" with
            | string encoded_data =>
              right; left
              exact ⟨mime_type, encoded_data, by simp, by simp, ha⟩
            | _ =>
              right; right
              have hf : Cxx.found mime_type (Cxx.utf8 "audio") = true :=
                (Cxx.found_iff _ _).mpr ha
              simp [audio_from_parts, h1, h2, h3, hm, hd, Json.get_string, hf]
          · left; right; right
            exact ⟨mime_type, by simp, ha⟩
        | _ =>
          right; right
          simp [audio_from_parts, h1, h2, h3, hm, Json.get_string]

theorem audio_from_parts_some_iff (block : List Int) : ∀ parts : List Json,
    audio_from_parts parts = some block ↔
      ∃ pre part post mime_type encoded_data,
        parts = pre ++ part :: post ∧ (∀ q ∈ pre, is_passed_over q) ∧
        part.path ["inlineData", "mimeType"] = some (Json.string mime_type) ∧
        part.path ["inlineData", "data"] = some (Json.string encoded_data) ∧
        Cxx.utf8 "audio" <:+: mime_type ∧
        block = uint8_to_int16 (base64_decode encoded_data) := by
  intro parts
  induction parts with
  | nil =>
    constructor
    · intro h; simp [audio_from_parts] at h
    · rintro ⟨pre, part, post, _, _, h, _⟩
      simp at h
  | cons p rest ih =>
    constructor
    · intro h
      rcases audio_step_cases p rest with hs | ⟨m, d, hm, hd, ha⟩ | hn
      · rw [audio_step_skip p rest hs] at h
        obtain ⟨pre, part, post, m, d, hsplit, hpre, hm, hd, ha, hb⟩ := ih.mp h
        refine ⟨p :: pre, part, post, m, d, by rw [hsplit]; rfl, ?_, hm, hd, ha, hb⟩
        intro q hq
        rcases List.mem_cons.mp hq with rfl | hq
        · exact hs
        · exact hpre q hq
      · rw [audio_step_hit p rest m d hm hd ha] at h
        exact ⟨[], p, rest, m, d, rfl, by simp, hm, hd, ha, (Option.some.inj h).symm⟩
      · rw [hn] at h; cases h
    · rintro ⟨pre, part, post, m, d, hsplit, hpre, hm, hd, ha, hb⟩
      cases pre with
      | nil =>
        simp only [List.nil_append, List.cons.injEq] at hsplit
        obtain ⟨rfl, rfl⟩ := hsplit
        rw [audio_step_hit p rest m d hm hd ha, hb]
      | cons q pre' =>
        simp only [List.cons_append, List.cons.injEq] at hsplit
        obtain ⟨rfl, hrest⟩ := hsplit
        rw [audio_step_skip p rest (hpre p (by simp))]
        exact ih.mpr ⟨pre', part, post, m, d, hrest, fun x hx => hpre x (by simp [hx]),
          hm, hd, ha, hb⟩

theorem extract_audio_eq (response : Json) :
    extract_audio_from_response (some response) = audio_from_parts (model_parts response) := by
  unfold extract_audio_from_response model_parts
  dsimp only
  rw [Json.path_three]
  cases response.contains "serverContent"
  · rfl
  · cases (response.member "serverContent").contains "modelTurn"
    · rfl
    · cases (((response.member "serverContent").member "modelTurn").contains "parts")
      · rfl
      · rfl

/-- C11 (counterexample): a message whose only part has an `inlineData` with the
`mimeType` "audio/pcm" but no `data`, and one whose `data` is a number, both
carry model-generated content whose `inlineData` has a `mimeType` containing
"audio", yet `extract_audio_from_response` returns no sample block. -/
theorem extract_audio_none_with_audio_mime :
    (extract_audio_from_response (some audio_without_data_message) = none ∧
      ∃ part ∈ model_parts audio_without_data_message, ∃ mime_type,
        part.path ["inlineData", "mimeType"] = some (Json.string mime_type) ∧
        Cxx.utf8 "audio" <:+: mime_type) ∧
    (extract_audio_from_response (some audio_with_number_data_message) = none ∧
      ∃ part ∈ model_parts audio_with_number_data_message, ∃ mime_type,
        part.path ["inlineData", "mimeType"] = some (Json.string mime_type) ∧
        Cxx.utf8 "audio" <:+: mime_type) := by
  refine ⟨⟨by decide, ?_⟩, ⟨by decide, ?_⟩⟩
  · exact ⟨Json.object [("inlineData",
        Json.object [("mimeType", Json.string (Cxx.utf8 "audio/pcm"))])],
      List.mem_singleton_self _, Cxx.utf8 "audio/pcm", rfl, [], Cxx.utf8 "/pcm", by decide⟩
  · exact ⟨Json.object [("inlineData",
        Json.object [("data", Json.number_integer 7),
                     ("mimeType", Json.string (Cxx.utf8 "audio/pcm"))])],
      List.mem_singleton_self _, Cxx.utf8 "audio/pcm", rfl, [], Cxx.utf8 "/pcm", by decide⟩

/-- C11 (amended): `extract_audio_from_response` returns a sample block exactly
when the message parses and `serverContent.modelTurn.parts` has an element whose
`inlineData` has both a `mimeType` and a `data` member, both strings, the
`mimeType` containing "audio", while every element before it is passed over
(it has no `inlineData`, its `inlineData` lacks `mimeType` or `data`, or its
`mimeType` is a string without "audio"). -/
theorem extract_audio_present_iff (parsed : Option Json) :
    (extract_audio_from_response parsed).isSome = true ↔
      ∃ response pre part post,
        parsed = some response ∧ model_parts response = pre ++ part :: post ∧
        (∀ q ∈ pre, is_passed_over q) ∧ is_audio_part part := by
  cases parsed with
  | none => simp [extract_audio_from_response]
  | some response =>
    rw [extract_audio_eq, Option.isSome_iff_exists]
    constructor
    · rintro ⟨block, hb⟩
      obtain ⟨pre, part, post, m, d, hsplit, hpre, hm, hd, ha, _⟩ :=
        (audio_from_parts_some_iff block _).mp hb
      exact ⟨response, pre, part, post, rfl, hsplit, hpre, m, d, hm, hd, ha⟩
    · rintro ⟨r, pre, part, post, hr, hsplit, hpre, m, d, hm, hd, ha⟩
      cases hr
      exact ⟨_, (audio_from_parts_some_iff _ _).mpr
        ⟨pre, part, post, m, d, hsplit, hpre, hm, hd, ha, rfl⟩⟩

end MessageHandler

namespace MessageHandler

/-! ## Malformed input -/

end MessageHandler

namespace MessageHandler

/-! ## The audio input message -/

/-- C21: for every sample block `s` and mime type `m`, `create_audio_input_message`
builds a JSON object whose `realtimeInput.mediaChunks` is a one-element array whose
element has `data = base64_encode (int16_to_uint8 s)` and `mimeType = m`; the
default of `m` is "audio/pcm;rate=16000". -/
theorem create_audio_input_message_shape (s : List Int) (m : List Nat) :
    (∃ members, create_audio_input_message s m = Json.object members) ∧
    (∃ chunk,
      (create_audio_input_message s m).path ["realtimeInput", "mediaChunks"] =
          some (Json.array [chunk]) ∧
        chunk.path ["data"] = some (Json.string (base64_encode (int16_to_uint8 s))) ∧
        chunk.path ["mimeType"] = some (Json.string m)) ∧
    Main.default_mime_type = Cxx.utf8 "audio/pcm;rate=16000" ∧
    Main.default_mime_type =
      [97, 117, 100, 105, 111, 47, 112, 99, 109, 59, 114, 97, 116, 101, 61, 49, 54, 48, 48, 48] :=
  ⟨⟨_, rfl⟩, ⟨_, rfl, rfl, rfl⟩, rfl, by decide⟩

end MessageHandler

namespace Main

open MessageHandler Cxx

/-! ## Frame conditions of the callback and of the drain loop -/

/-- C22: processing an inbound message changes only the transcript buffer of the
role the message is filed under: a message filed under the assistant leaves the
user buffer as it was, a message filed under the user leaves the assistant
buffer as it was, and a message without an extractable transcript leaves the
whole state (both buffers and the printed lines) as it was. -/
theorem on_transcript_frame (message : Option Json) (s : TranscriptState) :
    (role_of message = Role.assistant →
      (on_transcript message s).user_transcript_buffer = s.user_transcript_buffer) ∧
    (role_of message = Role.user →
      (on_transcript message s).ai_transcript_buffer = s.ai_transcript_buffer) ∧
    (extract_transcription_from_response message = none → on_transcript message s = s) := by
  refine ⟨?_, ?_, ?_⟩
  · intro hr
    have hu : is_user_input_transcription message = false := by
      cases h : is_user_input_transcription message
      · rfl
      · simp [role_of, h] at hr
    unfold on_transcript
    cases extract_transcription_from_response message with
    | none => rfl
    | some t =>
      simp only [hu, Bool.false_eq_true, if_false]
      split <;> rfl
  · intro hr
    have hu : is_user_input_transcription message = true := by
      cases h : is_user_input_transcription message
      · simp [role_of, h] at hr
      · rfl
    unfold on_transcript
    cases extract_transcription_from_response message with
    | none => rfl
    | some t =>
      simp only [hu, if_true]
      split <;> rfl
  · intro hn
    simp [on_transcript, hn]

theorem on_transcript_frame_witness :
    (on_transcript (output_transcription_message (utf8 " world."))
        { user_transcript_buffer := utf8 "Hi", ai_transcript_buffer := utf8 "Hello",
          printed := [] }).user_transcript_buffer = utf8 "Hi" ∧
      on_transcript none
          { user_transcript_buffer := utf8 "Hi", ai_transcript_buffer := utf8 "Hello",
            printed := [] } =
        { user_transcript_buffer := utf8 "Hi", ai_transcript_buffer := utf8 "Hello",
          printed := [] } :=
  ⟨(on_transcript_frame (output_transcription_message (utf8 " world."))
      { user_transcript_buffer := utf8 "Hi", ai_transcript_buffer := utf8 "Hello",
        printed := [] }).1 (by decide),
   (on_transcript_frame none
      { user_transcript_buffer := utf8 "Hi", ai_transcript_buffer := utf8 "Hello",
        printed := [] }).2.2 rfl⟩

/-- C23: a drain tick (in either mode) that finds fewer than `BUFFER_SIZE` samples
buffered and either fewer than `MIN_BUFFER_SIZE`, or a queue observed non-empty,
hands nothing to `play_audio` and leaves the buffer equal to the previous
buffer followed by the blocks just drained from the queue. -/
theorem playback_tick_idle (BUFFER_SIZE MIN_BUFFER_SIZE : Nat) (dummy_audio : Bool)
    (arrivals : List (List Int)) (s : DrainState)
    (hhigh : (s.audio_buffer ++ s.g_audio_queue.flatten).length < BUFFER_SIZE)
    (hidle : (s.audio_buffer ++ s.g_audio_queue.flatten).length < MIN_BUFFER_SIZE ∨
      arrivals ≠ []) :
    (playback_tick BUFFER_SIZE MIN_BUFFER_SIZE dummy_audio arrivals s).2 = [] ∧
      (playback_tick BUFFER_SIZE MIN_BUFFER_SIZE dummy_audio arrivals s).1.audio_buffer =
        s.audio_buffer ++ s.g_audio_queue.flatten := by
  have h1 : ¬ (s.audio_buffer ++ s.g_audio_queue.flatten).length ≥ BUFFER_SIZE := by omega
  simp only [playback_tick, absorb_queue_eq, h1, if_false]
  rcases hidle with hlow | harr
  · have h2 : ¬ (s.audio_buffer ++ s.g_audio_queue.flatten).length ≥ MIN_BUFFER_SIZE := by
      omega
    simp only [h2, if_false, and_self]
  · have he : arrivals.isEmpty = false := by
      cases arrivals with
      | nil => exact absurd rfl harr
      | cons a rest => rfl
    simp only [he, Bool.false_and, Bool.false_eq_true, if_false]
    split <;> exact ⟨rfl, rfl⟩

theorem playback_tick_idle_witness :
    (playback_tick 5 3 false [] { g_audio_queue := [[1]], audio_buffer := [0] }).2 = [] ∧
      (playback_tick 5 3 false []
        { g_audio_queue := [[1]], audio_buffer := [0] }).1.audio_buffer = [0, 1] ∧
      (playback_tick 5 1 false [[7]] { g_audio_queue := [[1]], audio_buffer := [0] }).2 = [] ∧
      (playback_tick 5 1 false [[7]]
        { g_audio_queue := [[1]], audio_buffer := [0] }).1.audio_buffer = [0, 1] :=
  ⟨(playback_tick_idle 5 3 false [] { g_audio_queue := [[1]], audio_buffer := [0] }
      (by decide) (Or.inl (by decide))).1,
   (playback_tick_idle 5 3 false [] { g_audio_queue := [[1]], audio_buffer := [0] }
      (by decide) (Or.inl (by decide))).2,
   (playback_tick_idle 5 1 false [[7]] { g_audio_queue := [[1]], audio_buffer := [0] }
      (by decide) (Or.inr (by decide))).1,
   (playback_tick_idle 5 1 false [[7]] { g_audio_queue := [[1]], audio_buffer := [0] }
      (by decide) (Or.inr (by decide))).2⟩

/-- C24 (counterexample): with `BUFFER_SIZE = 3` and five samples buffered the
dummy tick leaves nothing where the non-dummy tick leaves two samples; with
`MIN_BUFFER_SIZE = 1`, `BUFFER_SIZE = 5`, two samples buffered and an empty queue
the dummy tick keeps both samples where the non-dummy tick leaves none. -/
theorem dummy_tick_differs :
    ((playback_tick 3 1 true [] { g_audio_queue := [], audio_buffer := [1, 2, 3, 4, 5] }).1.audio_buffer
        = [] ∧
      (playback_tick 3 1 false []
        { g_audio_queue := [], audio_buffer := [1, 2, 3, 4, 5] }).1.audio_buffer = [4, 5]) ∧
    ((playback_tick 5 1 true [] { g_audio_queue := [], audio_buffer := [1, 2] }).1.audio_buffer
        = [1, 2] ∧
      (playback_tick 5 1 false []
        { g_audio_queue := [], audio_buffer := [1, 2] }).1.audio_buffer = []) := by
  decide

/-- C24 (amended): in dummy mode a drain tick hands nothing to `play_audio`; when
it finds at least `BUFFER_SIZE` samples buffered it discards the whole buffer,
and when it finds fewer it keeps the buffer (previous buffer followed by the
drained blocks), also at the low watermark with an empty queue. -/
theorem dummy_tick_drains (BUFFER_SIZE MIN_BUFFER_SIZE : Nat) (arrivals : List (List Int))
    (s : DrainState) :
    (playback_tick BUFFER_SIZE MIN_BUFFER_SIZE true arrivals s).2 = [] ∧
    (BUFFER_SIZE ≤ (s.audio_buffer ++ s.g_audio_queue.flatten).length →
      (playback_tick BUFFER_SIZE MIN_BUFFER_SIZE true arrivals s).1.audio_buffer = []) ∧
    ((s.audio_buffer ++ s.g_audio_queue.flatten).length < BUFFER_SIZE →
      (playback_tick BUFFER_SIZE MIN_BUFFER_SIZE true arrivals s).1.audio_buffer =
        s.audio_buffer ++ s.g_audio_queue.flatten) := by
  by_cases h : (s.audio_buffer ++ s.g_audio_queue.flatten).length ≥ BUFFER_SIZE
  · have ht : playback_tick BUFFER_SIZE MIN_BUFFER_SIZE true arrivals s =
        ({ g_audio_queue := arrivals, audio_buffer := [] }, []) := by
      simp only [playback_tick, absorb_queue_eq, h, if_true, Bool.not_true, Bool.false_eq_true,
        if_false]
    rw [ht]
    exact ⟨rfl, fun _ => rfl, fun hlt => absurd h (by omega)⟩
  · have ht : playback_tick BUFFER_SIZE MIN_BUFFER_SIZE true arrivals s =
        ({ g_audio_queue := arrivals,
           audio_buffer := s.audio_buffer ++ s.g_audio_queue.flatten }, []) := by
      simp only [playback_tick, absorb_queue_eq, h, if_false, Bool.not_true, Bool.and_false,
        Bool.false_eq_true]
      split <;> rfl
    rw [ht]
    exact ⟨rfl, fun hge => absurd hge h, fun _ => rfl⟩

theorem dummy_tick_drains_witness :
    (playback_tick 3 1 true [] { g_audio_queue := [[4, 5]], audio_buffer := [1, 2, 3] }).1.audio_buffer
        = [] ∧
      (playback_tick 5 1 true [] { g_audio_queue := [[2]], audio_buffer := [1] }).1.audio_buffer
        = [1, 2] :=
  ⟨(dummy_tick_drains 3 1 [] { g_audio_queue := [[4, 5]], audio_buffer := [1, 2, 3] }).2.1
      (by decide),
   (dummy_tick_drains 5 1 [] { g_audio_queue := [[2]], audio_buffer := [1] }).2.2 (by decide)⟩

end Main

namespace Main

open MessageHandler Cxx

/-! ## Startup and shutdown -/

/-- C25 (counterexample): with a configuration file that exists and cannot be
loaded (`Config(config_path)` throws), an API key, dummy audio and a service
that is reachable and stays connected, `main` does not return: it connects,
sends the setup message and goes on to start its threads with the default
configuration. -/
theorem broken_config_is_not_fatal :
    broken_config_env.config_file_good = true ∧
      (∃ what, broken_config_env.config_from_file = Except.error what) ∧
      main_startup broken_config_env =
        StartupResult.session_started Config.setDefaults false := by
  refine ⟨rfl, ⟨_, rfl⟩, by decide⟩

/-- C25 (amended): a configuration file that exists but cannot be loaded is not
fatal: `main` catches the exception and continues exactly as it does when the
file is missing, with the default configuration. -/
theorem broken_config_falls_back_to_defaults (env : StartupEnv) (what : List Nat) :
    load_config { env with config_file_good := true, config_from_file := Except.error what } =
        Config.setDefaults ∧
      load_config { env with config_file_good := false } = Config.setDefaults ∧
      main_startup
          { env with config_file_good := true, config_from_file := Except.error what } =
        main_startup { env with config_file_good := false } :=
  ⟨rfl, rfl, rfl⟩

/-- C26 (evaluation at the failing execution): when the server closes the
connection and nothing else happens, the wait loop of `main` is left with
`g_running` still true, the cleanup does not clear it, and at
`playback_thread.join()` the playback thread, which polls only `g_running`,
has not stopped; after an interrupt or a read error the flag is false at the
join. -/
theorem server_close_leaves_flag_set :
    flags_at_join [SessionEvent.server_closed] =
        some { g_running := true, connected_ := false } ∧
      (flags_at_join [SessionEvent.server_closed]).map playback_thread_stops = some false ∧
      (flags_at_join [SessionEvent.interrupt]).map playback_thread_stops = some true ∧
      (flags_at_join [SessionEvent.read_error]).map playback_thread_stops = some true := by
  decide

theorem wait_loop_exit (events : List SessionEvent) :
    ∀ s t : SessionFlags, wait_loop events s = some t →
      t.g_running = false ∨ t.connected_ = false := by
  induction events with
  | nil =>
    intro s t h
    cases hg : s.g_running <;> cases hc : s.connected_ <;>
      simp [wait_loop, hg, hc] at h <;> subst h <;> simp [hg, hc]
  | cons ev rest ih =>
    intro s t h
    cases hg : s.g_running <;> cases hc : s.connected_ <;>
      simp [wait_loop, hg, hc] at h
    · subst h; simp [hg]
    · subst h; simp [hg]
    · subst h; simp [hc]
    · exact ih _ _ h

end Main

namespace MessageHandler

/-! ## Decoding without padding -/

theorem dropWhile_replicate_append (p : Nat → Bool) (a : Nat) (ha : p a = true)
    (l : List Nat) : ∀ k, (List.replicate k a ++ l).dropWhile p = l.dropWhile p := by
  intro k
  induction k with
  | zero => rfl
  | succ k ih =>
    rw [List.replicate_succ, List.cons_append, List.dropWhile_cons, ha]
    simpa using ih

theorem dropWhile_none (p : Nat → Bool) (l : List Nat) (h : ∀ x ∈ l, p x = false) :
    l.dropWhile p = l := by
  cases l with
  | nil => rfl
  | cons x rest =>
    rw [List.dropWhile_cons, h x (by simp)]
    rfl

theorem strip_padding_body (body : List Nat) (k : Nat) (h : ∀ x ∈ body, x ≠ 61) :
    strip_padding (body ++ List.replicate k 61) = body := by
  unfold strip_padding
  rw [List.reverse_append, List.reverse_replicate,
    dropWhile_replicate_append (fun c => c == 61) 61 rfl body.reverse k,
    dropWhile_none (fun c => c == 61) body.reverse, List.reverse_reverse]
  intro x hx
  have hx' : x ∈ body := List.mem_reverse.mp hx
  simpa using h x hx'

theorem decode_body (u3 : CharArray3) (u4 : CharArray4) (body : List Nat) (k : Nat)
    (h : ∀ x ∈ body, x ∈ base64_chars) :
    base64_decode_with u3 u4 (body ++ List.replicate k 61) = base64_decode_with u3 u4 body := by
  cases k with
  | zero => simp
  | succ k =>
    have hg : decode_guard 61 = false := by decide
    unfold base64_decode_with
    rw [List.replicate_succ,
      base64_decode_loop_stop 61 _ hg body _ (fun x hx => (decode_guard_iff_mem x).mpr (h x hx))]

theorem base64_decode_with_encoded (u3 : CharArray3) (u4 : CharArray4) (b : List Nat)
    (hb : ∀ x ∈ b, x < 256) : base64_decode_with u3 u4 (encoded b) = b := by
  unfold base64_decode_with
  simpa using decode_closed_form b
    { i := 0, char_array_3 := u3, char_array_4 := u4, ret := [] } rfl hb

/-- C27: for every byte sequence `b`, decoding `base64_encode b` with its trailing
`=` characters removed still returns exactly `b`. -/
theorem base64_decode_without_padding (u3 v3 : CharArray3) (u4 v4 : CharArray4) (b : List Nat)
    (hb : ∀ x ∈ b, x < 256) :
    base64_decode_with v3 v4 (strip_padding (base64_encode_with u3 u4 b)) = b := by
  rw [base64_encode_with_eq_encoded u3 u4 b hb]
  obtain ⟨body, hbody, hmem⟩ := encoded_padding b hb
  rw [hbody, strip_padding_body body _ (fun x hx => (hmem x hx).2),
    ← decode_body v3 v4 body ((3 - b.length % 3) % 3) (fun x hx => (hmem x hx).1), ← hbody]
  exact base64_decode_with_encoded v3 v4 b hb

theorem base64_decode_without_padding_witness :
    (∀ x ∈ [77, 97, 110, 255], x < 256) ∧
      strip_padding (base64_encode [77, 97, 110, 255]) = Cxx.utf8 "TWFu/w" ∧
      base64_decode (strip_padding (base64_encode [77, 97, 110, 255])) = [77, 97, 110, 255] :=
  ⟨by decide, by decide,
    base64_decode_without_padding ⟨0, 0, 0⟩ ⟨0, 0, 0⟩ ⟨0, 0, 0, 0⟩ ⟨0, 0, 0, 0⟩
      [77, 97, 110, 255] (by decide)⟩

end MessageHandler

namespace Main

open MessageHandler Cxx

/-! ## Invariants of the transcript buffers and of the accumulator -/

theorem on_transcript_keeps_clean (message : Option Json) (s : TranscriptState)
    (hu : has_terminator s.user_transcript_buffer = false)
    (ha : has_terminator s.ai_transcript_buffer = false) :
    has_terminator (on_transcript message s).user_transcript_buffer = false ∧
      has_terminator (on_transcript message s).ai_transcript_buffer = false := by
  have hnil : has_terminator [] = false := by decide
  unfold on_transcript
  cases extract_transcription_from_response message with
  | none => exact ⟨hu, ha⟩
  | some t =>
    cases is_user_input_transcription message
    · simp only [Bool.false_eq_true, if_false]
      cases ht : has_terminator (s.ai_transcript_buffer ++ t)
      · simp only [Bool.false_eq_true, if_false]
        exact ⟨hu, ht⟩
      · simp only [if_true]
        exact ⟨hu, hnil⟩
    · simp only [if_true]
      cases ht : has_terminator (s.user_transcript_buffer ++ t)
      · simp only [Bool.false_eq_true, if_false]
        exact ⟨ht, ha⟩
      · simp only [if_true]
        exact ⟨hnil, ha⟩

theorem on_transcripts_keep_clean (messages : List (Option Json)) :
    ∀ s : TranscriptState, has_terminator s.user_transcript_buffer = false →
      has_terminator s.ai_transcript_buffer = false →
      has_terminator (on_transcripts messages s).user_transcript_buffer = false ∧
        has_terminator (on_transcripts messages s).ai_transcript_buffer = false := by
  induction messages with
  | nil => intro s hu ha; exact ⟨hu, ha⟩
  | cons message rest ih =>
    intro s hu ha
    have h := on_transcript_keeps_clean message s hu ha
    exact ih (on_transcript message s) h.1 h.2

/-- C28: starting from two empty transcript buffers, after the callback has
processed any sequence of inbound messages neither the user buffer nor the
assistant buffer contains any of the terminators. -/
theorem buffers_hold_no_terminator (messages : List (Option Json)) :
    (¬ ∃ term ∈ terminators,
        term <:+: (on_transcripts messages TranscriptState.empty).user_transcript_buffer) ∧
      (¬ ∃ term ∈ terminators,
        term <:+: (on_transcripts messages TranscriptState.empty).ai_transcript_buffer) := by
  have hnil : has_terminator [] = false := by decide
  have h := on_transcripts_keep_clean messages TranscriptState.empty hnil hnil
  rw [← has_terminator_iff, ← has_terminator_iff, Bool.not_eq_true, Bool.not_eq_true]
  exact h

theorem buffers_hold_no_terminator_witness :
    ¬ ∃ term ∈ terminators,
      term <:+: (on_transcripts
        [output_transcription_message (utf8 "Hello"),
         output_transcription_message (utf8 " world."),
         output_transcription_message (utf8 "Next")]
        TranscriptState.empty).ai_transcript_buffer :=
  (buffers_hold_no_terminator
    [output_transcription_message (utf8 "Hello"),
     output_transcription_message (utf8 " world."),
     output_transcription_message (utf8 "Next")]).2

/-- C30: for every `CHUNK_SIZE ≥ 1`, every invocation of the recording callback
sends at most one audio message and leaves fewer than `CHUNK_SIZE` samples in
the accumulator, whatever the length of the block; so after every invocation of
a run from the empty accumulator the accumulator holds fewer than `CHUNK_SIZE`
samples. -/
theorem recording_callback_bounded (CHUNK_SIZE : Nat) (GAIN_FACTOR : Int)
    (hpos : 1 ≤ CHUNK_SIZE) :
    (∀ (block : List Int) (s : CaptureState),
      ((recording_callback CHUNK_SIZE GAIN_FACTOR block s).sent = s.sent ∨
        ∃ m, (recording_callback CHUNK_SIZE GAIN_FACTOR block s).sent = s.sent ++ [m]) ∧
      (recording_callback CHUNK_SIZE GAIN_FACTOR block s).accumulated_audio.length <
        CHUNK_SIZE) ∧
    (∀ blocks : List (List Int),
      (record CHUNK_SIZE GAIN_FACTOR blocks
        { accumulated_audio := [], sent := [] }).accumulated_audio.length < CHUNK_SIZE) := by
  have step : ∀ (block : List Int) (s : CaptureState),
      ((recording_callback CHUNK_SIZE GAIN_FACTOR block s).sent = s.sent ∨
        ∃ m, (recording_callback CHUNK_SIZE GAIN_FACTOR block s).sent = s.sent ++ [m]) ∧
      (recording_callback CHUNK_SIZE GAIN_FACTOR block s).accumulated_audio.length <
        CHUNK_SIZE := by
    intro block s
    by_cases hfull : (s.accumulated_audio ++ block.map (amplify GAIN_FACTOR)).length ≥
        CHUNK_SIZE
    · have hcb : recording_callback CHUNK_SIZE GAIN_FACTOR block s =
          { accumulated_audio := [],
            sent := s.sent ++ [create_audio_input_message
              (s.accumulated_audio ++ block.map (amplify GAIN_FACTOR)) default_mime_type] } := by
        simp only [recording_callback, hfull, if_true]
      rw [hcb]
      exact ⟨Or.inr ⟨_, rfl⟩, by simpa using hpos⟩
    · have hcb : recording_callback CHUNK_SIZE GAIN_FACTOR block s =
          { s with accumulated_audio :=
              s.accumulated_audio ++ block.map (amplify GAIN_FACTOR) } := by
        simp only [recording_callback, hfull, if_false]
      rw [hcb]
      exact ⟨Or.inl rfl, Nat.lt_of_not_ge hfull⟩
  refine ⟨step, ?_⟩
  intro blocks
  induction blocks using List.reverseRecOn with
  | nil => simpa [record] using hpos
  | append_singleton front last _ =>
    rw [record_append]
    exact (step last _).2

theorem recording_callback_bounded_witness :
    (recording_callback 3 5 [1, 2, 3, 4, 5, 6, 7]
        { accumulated_audio := [9], sent := [] }).accumulated_audio.length < 3 ∧
      (record 3 5 [[1], [2, 3, 4, 5], [6, 7]]
        { accumulated_audio := [], sent := [] }).accumulated_audio.length < 3 :=
  ⟨((recording_callback_bounded 3 5 (by decide)).1 [1, 2, 3, 4, 5, 6, 7]
      { accumulated_audio := [9], sent := [] }).2,
   (recording_callback_bounded 3 5 (by decide)).2 [[1], [2, 3, 4, 5], [6, 7]]⟩

end Main

namespace MessageHandler

/-! ## Several audio parts in one message -/

/-- C29 (counterexample): in a message with three parts, the first with a number
as `mimeType` (next to a `data`) and the other two audio parts, the first part
whose `inlineData` has `mimeType` and `data` with an audio mime type is the
second one, whose decoded samples are `[513]`; yet `extract_audio_from_response`
returns no block and nothing is enqueued. -/
theorem extract_audio_fails_before_first_audio_part :
    extract_audio_from_response (some ill_typed_then_audio_message) = none ∧
      uint8_to_int16 (base64_decode (Cxx.utf8 "AQI=")) = [513] ∧
      Main.on_audio (some ill_typed_then_audio_message) Main.DrainState.empty =
        Main.DrainState.empty := by
  decide

/-- C29 (amended): when an element of `serverContent.modelTurn.parts` has an
`inlineData` with a string `mimeType` containing "audio" and a string `data`, and
every element before it is passed over (no `inlineData`, `mimeType` or `data`
missing, or a string `mimeType` without "audio"), `extract_audio_from_response`
returns exactly the samples of the base64-decoded `data` of that element,
whatever follows it: later audio parts contribute nothing, and the block the
callback enqueues is that block. Two audio parts carrying `[513]` and `[1027]`
yield `[513]`. -/
theorem extract_audio_first_part_only (response : Json) (pre : List Json) (part : Json)
    (post : List Json) (mime_type encoded_data : List Nat)
    (hsplit : model_parts response = pre ++ part :: post)
    (hpre : ∀ q ∈ pre, is_passed_over q)
    (hm : part.path ["inlineData", "mimeType"] = some (Json.string mime_type))
    (hd : part.path ["inlineData", "data"] = some (Json.string encoded_data))
    (ha : Cxx.utf8 "audio" <:+: mime_type) :
    extract_audio_from_response (some response) =
        some (uint8_to_int16 (base64_decode encoded_data)) ∧
      (∀ s : Main.DrainState,
        Main.on_audio (some response) s =
          Main.enqueue (uint8_to_int16 (base64_decode encoded_data)) s) ∧
      extract_audio_from_response (some two_audio_parts_message) = some [513] := by
  have h : extract_audio_from_response (some response) =
      some (uint8_to_int16 (base64_decode encoded_data)) := by
    rw [extract_audio_eq]
    exact (audio_from_parts_some_iff _ _).mpr
      ⟨pre, part, post, mime_type, encoded_data, hsplit, hpre, hm, hd, ha, rfl⟩
  refine ⟨h, ?_, by decide⟩
  intro s
  simp only [Main.on_audio, h]

theorem extract_audio_first_part_only_witness :
    extract_audio_from_response (some two_audio_parts_message) =
        some (uint8_to_int16 (base64_decode (Cxx.utf8 "AQI="))) ∧
      Main.on_audio (some two_audio_parts_message) Main.DrainState.empty =
        Main.enqueue (uint8_to_int16 (base64_decode (Cxx.utf8 "AQI="))) Main.DrainState.empty :=
  ⟨(extract_audio_first_part_only two_audio_parts_message []
      (inline_part (Json.string (Cxx.utf8 "audio/pcm")) (Json.string (Cxx.utf8 "AQI=")))
      [inline_part (Json.string (Cxx.utf8 "audio/pcm")) (Json.string (Cxx.utf8 "AwQ="))]
      (Cxx.utf8 "audio/pcm") (Cxx.utf8 "AQI=") rfl (by simp) rfl rfl
      ⟨[], Cxx.utf8 "/pcm", by decide⟩).1,
   (extract_audio_first_part_only two_audio_parts_message []
      (inline_part (Json.string (Cxx.utf8 "audio/pcm")) (Json.string (Cxx.utf8 "AQI=")))
      [inline_part (Json.string (Cxx.utf8 "audio/pcm")) (Json.string (Cxx.utf8 "AwQ="))]
      (Cxx.utf8 "audio/pcm") (Cxx.utf8 "AQI=") rfl (by simp) rfl rfl
      ⟨[], Cxx.utf8 "/pcm", by decide⟩).2.1 Main.DrainState.empty⟩

end MessageHandler
